import Mathlib

/-!
Verification of the Antigravity Ultra agent engine: a shallow embedding of
the agent control loop (src/agent/agent.py), the model orchestration layer
(src/models.py, src/huggingface_client.py) and the configuration table
(src/config.py), together with theorems settling the specification claims.

Conventions of the embedding:
* Python strings are Lean String / List Char; machine integers are Int.
* Fallible Python code (code that can raise) is embedded with Except;
  external collaborators (HTTP clients, tool implementations, the LLM
  itself) are parameters of the embedded functions.
* json.loads is modelled by an executable recursive-descent decoder over
  the JSON subset exercised by the repository: objects, arrays, strings
  with the common escapes, integer numbers, true/false/null.  Fractional
  numbers and \u escapes are outside the model; no claim involves them.
-/

namespace Antigravity

/-- The backtick character, written via its code point. -/
def backtick : Char := Char.ofNat 96

/-- ASCII whitespace as matched by the Python regex class \s and by
str.strip / str.split on the texts the repository handles. -/
def isPySpace (c : Char) : Bool :=
  c == ' ' || c == '\t' || c == '\n' || c == '\r' || c == '\x0b' || c == '\x0c'

/-- List-of-characters prefix test, used by the directive scanner. -/
def startsWith : List Char → List Char → Bool
  | [], _ => true
  | _ :: _, [] => false
  | p :: ps, c :: cs => p == c && startsWith ps cs

/-- Python str.strip(): drop whitespace from both ends. -/
def pyStrip (cs : List Char) : List Char :=
  ((cs.dropWhile isPySpace).reverse.dropWhile isPySpace).reverse

/-- JSON values as produced by the embedded json.loads model.  Numbers are
embedded as integers (see the file header). -/
inductive JsonValue where
  | null : JsonValue
  | bool (b : Bool) : JsonValue
  | num (n : Int) : JsonValue
  | str (s : String) : JsonValue
  | arr (items : List JsonValue) : JsonValue
  | obj (fields : List (String × JsonValue)) : JsonValue
deriving Repr

/-- Python == between a decoded JSON value and a string constant, as used
when dispatching on a tool name: true exactly for the equal string. -/
def jsonEqStr (v : JsonValue) (s : String) : Bool :=
  match v with
  | JsonValue.str t => t == s
  | _ => false

/-- Insignificant whitespace between JSON tokens. -/
def isJsonWs (c : Char) : Bool :=
  c == ' ' || c == '\t' || c == '\n' || c == '\r'

/-- Skip insignificant JSON whitespace. -/
def skipWs (cs : List Char) : List Char := cs.dropWhile isJsonWs

/-- Decode the remainder of a JSON string after the opening quote. -/
def parseStringRest : Nat → List Char → Option (List Char × List Char)
  | 0, _ => none
  | _, [] => none
  | fuel + 1, c :: cs =>
    if c == '"' then some ([], cs)
    else if c == '\\' then
      match cs with
      | [] => none
      | e :: cs2 =>
        let esc : Option Char :=
          if e == '"' then some '"'
          else if e == '\\' then some '\\'
          else if e == '/' then some '/'
          else if e == 'n' then some '\n'
          else if e == 't' then some '\t'
          else if e == 'r' then some '\r'
          else if e == 'b' then some '\x08'
          else if e == 'f' then some '\x0c'
          else none
        match esc with
        | some ch =>
          match parseStringRest fuel cs2 with
          | some (s, r) => some (ch :: s, r)
          | none => none
        | none => none
    else
      match parseStringRest fuel cs with
      | some (s, r) => some (c :: s, r)
      | none => none

/-- Decode a run of decimal digits, accumulating its value. -/
def parseDigits : List Char → Nat → Nat × List Char
  | [], acc => (acc, [])
  | c :: cs, acc =>
    if c.isDigit then parseDigits cs (acc * 10 + (c.toNat - 48))
    else (acc, c :: cs)

/-- Decoder modes: a whole value, the members of an object (cursor at a
key), or the elements of an array (cursor at an element). -/
inductive PMode where
  | val : PMode
  | members : PMode
  | elems : PMode

/-- The JSON decoder.  Fuel-driven so that the recursion is structural;
every recursive call consumes input, so generous fuel never truncates. -/
def parseF : Nat → PMode → List Char → Option (JsonValue × List Char)
  | 0, _, _ => none
  | fuel + 1, PMode.val, cs =>
    match cs with
    | [] => none
    | c :: cs2 =>
      if c == '"' then
        match parseStringRest (cs2.length + 1) cs2 with
        | some (s, r) => some (JsonValue.str (String.mk s), r)
        | none => none
      else if c == '{' then
        match skipWs cs2 with
        | [] => none
        | d :: cs3 =>
          if d == '}' then some (JsonValue.obj [], cs3)
          else parseF fuel PMode.members (d :: cs3)
      else if c == '[' then
        match skipWs cs2 with
        | [] => none
        | d :: cs3 =>
          if d == ']' then some (JsonValue.arr [], cs3)
          else parseF fuel PMode.elems (d :: cs3)
      else if c == 't' then
        if startsWith (['r', 'u', 'e']) cs2 then some (JsonValue.bool true, cs2.drop 3)
        else none
      else if c == 'f' then
        if startsWith (['a', 'l', 's', 'e']) cs2 then some (JsonValue.bool false, cs2.drop 4)
        else none
      else if c == 'n' then
        if startsWith (['u', 'l', 'l']) cs2 then some (JsonValue.null, cs2.drop 3)
        else none
      else if c == '-' then
        match cs2 with
        | d :: _ =>
          if d.isDigit then
            let nr := parseDigits cs2 0
            some (JsonValue.num (-(nr.1 : Int)), nr.2)
          else none
        | [] => none
      else if c.isDigit then
        let nr := parseDigits (c :: cs2) 0
        some (JsonValue.num (nr.1 : Int), nr.2)
      else none
  | fuel + 1, PMode.members, cs =>
    match cs with
    | [] => none
    | c :: cs2 =>
      if c == '"' then
        match parseStringRest (cs2.length + 1) cs2 with
        | some (k, r1) =>
          match skipWs r1 with
          | [] => none
          | colon :: r2 =>
            if colon == ':' then
              match parseF fuel PMode.val (skipWs r2) with
              | some (v, r3) =>
                match skipWs r3 with
                | [] => none
                | sep :: r4 =>
                  if sep == ',' then
                    match parseF fuel PMode.members (skipWs r4) with
                    | some (JsonValue.obj rest, r5) =>
                      some (JsonValue.obj ((String.mk k, v) :: rest), r5)
                    | _ => none
                  else if sep == '}' then some (JsonValue.obj [(String.mk k, v)], r4)
                  else none
              | none => none
            else none
        | none => none
      else none
  | fuel + 1, PMode.elems, cs =>
    match parseF fuel PMode.val cs with
    | some (v, r) =>
      match skipWs r with
      | [] => none
      | sep :: r2 =>
        if sep == ',' then
          match parseF fuel PMode.elems (skipWs r2) with
          | some (JsonValue.arr rest, r3) => some (JsonValue.arr (v :: rest), r3)
          | _ => none
        else if sep == ']' then some (JsonValue.arr [v], r2)
        else none
    | none => none

/-- Model of json.loads: decode one value, then require only whitespace to
remain; anything else is a JSONDecodeError, embedded as none. -/
def loads (cs : List Char) : Option JsonValue :=
  match parseF (2 * cs.length + 2) PMode.val (skipWs cs) with
  | some (v, rest) => if skipWs rest == [] then some v else none
  | none => none

/-- Last binding of a key in a decoded object, mirroring the fact that a
Python dict built by json.loads keeps the last duplicate key. -/
def lookupLast : List (String × JsonValue) → String → Option JsonValue
  | [], _ => none
  | (k2, v) :: rest, k =>
    match lookupLast rest k with
    | some w => some w
    | none => if k2 == k then some v else none

/-- Python dict.get with a default value. -/
def dictGet (fields : List (String × JsonValue)) (k : String) (d : JsonValue) :
    JsonValue :=
  (lookupLast fields k).getD d

/-- Python truthiness of a decoded JSON value. -/
def pyTruthy : JsonValue → Bool
  | JsonValue.null => false
  | JsonValue.bool b => b
  | JsonValue.num n => n != 0
  | JsonValue.str s => s != ""
  | JsonValue.arr [] => false
  | JsonValue.arr (_ :: _) => true
  | JsonValue.obj [] => false
  | JsonValue.obj (_ :: _) => true

/-! ## The directive scanner

Embedding of `re.findall(r'```tool\s*\n(.*?)\n```', text, re.DOTALL)` from
`Agent._parse_tool_calls`: literal open tag, greedy whitespace run with
backtracking, mandatory newline, shortest capture up to a newline followed
by three backticks, scanning left to right without overlap. -/

/-- The literal opening of a directive block. -/
def openTag : List Char := ("```tool").data

/-- The characters closing a directive block: newline then three backticks. -/
def closeFence : List Char := '\n' :: backtick :: backtick :: backtick :: []

/-- Length of the maximal whitespace run at the head of the text. -/
def wsRunLen : List Char → Nat
  | [] => 0
  | c :: cs => if isPySpace c then wsRunLen cs + 1 else 0

/-- Non-greedy search for the closing fence: the shortest candidate group
followed by the closing fence, together with the text after the fence. -/
def splitAtCloseFence : List Char → Option (List Char × List Char)
  | [] => none
  | c :: cs =>
    if startsWith closeFence (c :: cs) then some ([], cs.drop 3)
    else
      match splitAtCloseFence cs with
      | some (g, r) => some (c :: g, r)
      | none => none

/-- Backtracking of the greedy whitespace run: place the mandatory newline
at index m, and on failure retry at m - 1 down to 0. -/
def tryFrom (cs : List Char) : Nat → Option (List Char × List Char)
  | 0 =>
    if cs.head? == some '\n' then splitAtCloseFence (cs.drop 1) else none
  | m + 1 =>
    match
      (if (cs.take (m + 1)).all isPySpace && cs.get? (m + 1) == some '\n'
       then splitAtCloseFence (cs.drop (m + 2)) else none) with
    | some gr => some gr
    | none => tryFrom cs m

/-- Try to match the directive pattern at the current position; on success
return the captured group and the text after the whole match. -/
def matchToolAt (cs : List Char) : Option (List Char × List Char) :=
  if startsWith openTag cs then
    let rest := cs.drop 7
    tryFrom rest (wsRunLen rest)
  else none

/-- Fuel-driven left-to-right scan; the fuel is an upper bound on the text
length, and every step consumes at least one character, so the scan with
fuel = length never truncates. -/
def findBlocksAux : Nat → List Char → List (List Char)
  | 0, _ => []
  | _, [] => []
  | fuel + 1, c :: cs =>
    match matchToolAt (c :: cs) with
    | some (g, rest) => g :: findBlocksAux fuel rest
    | none => findBlocksAux fuel cs

/-- All non-overlapping directive matches in textual order: the embedding
of re.findall over the response text. -/
def findToolBlocks (cs : List Char) : List (List Char) :=
  findBlocksAux cs.length cs

/-- A parsed tool directive (`ToolCall` in src/agent/agent.py).  The name
and arguments are whatever JSON values dict.get returned. -/
structure ToolCall where
  name : JsonValue
  arguments : JsonValue
  result : Option String := none
deriving Repr

/-- The loop body of `Agent._parse_tool_calls` over the matched blocks:
json.loads each stripped block, skip blocks that fail to decode
(JSONDecodeError is caught), build a ToolCall from a decoded object, and
raise AttributeError when dict.get is called on a non-object value (only
JSONDecodeError is caught by the source). -/
def toolCallsOfBlocks : List (List Char) → Except String (List ToolCall)
  | [] => Except.ok []
  | b :: bs =>
    match loads (pyStrip b) with
    | none => toolCallsOfBlocks bs
    | some (JsonValue.obj fields) =>
      match toolCallsOfBlocks bs with
      | Except.ok rest =>
        Except.ok (ToolCall.mk (dictGet fields ("name") (JsonValue.str ("")))
          (dictGet fields ("arguments") (JsonValue.obj [])) none :: rest)
      | Except.error e => Except.error e
    | some _ => Except.error ("AttributeError")

/-- `Agent._parse_tool_calls`: extract tool calls from response text. -/
def parse_tool_calls (text : String) : Except String (List ToolCall) :=
  toolCallsOfBlocks (findToolBlocks text.data)

example : parse_tool_calls ("hello world") = Except.ok [] := rfl

example :
    parse_tool_calls ("```tool\n\x7b\"name\": \"x\", \"arguments\": \x7b\x7d\x7d\n```") =
      Except.ok [ToolCall.mk (JsonValue.str ("x")) (JsonValue.obj []) none] := rfl

example : parse_tool_calls ("```tool\n42\n```") = Except.error ("AttributeError") := rfl

example : parse_tool_calls ("```tool\nnot json\n```") = Except.ok [] := rfl

example :
    parse_tool_calls ("a ```tool\n\x7b\"name\": \"u\"\x7d\n``` b ```tool\nbad\n``` c ```tool\n\x7b\"name\": \"v\"\x7d\n```") =
      Except.ok [ToolCall.mk (JsonValue.str ("u")) (JsonValue.obj []) none,
        ToolCall.mk (JsonValue.str ("v")) (JsonValue.obj []) none] := rfl

/-! ## Strings and Python conversions -/

/-- Python str.join with a separator (sep.join(xs)). -/
def joinSep (sep : String) : List String → String
  | [] => ""
  | [x] => x
  | x :: y :: xs => x ++ sep ++ joinSep sep (y :: xs)

/-- Concatenation of a chunk list, as built by repeated += on a string. -/
def strConcat : List String → String
  | [] => ""
  | s :: ss => s ++ strConcat ss

mutual

/-- Python repr() of a decoded JSON value. -/
def pyRepr : JsonValue → String
  | JsonValue.null => "None"
  | JsonValue.bool true => "True"
  | JsonValue.bool false => "False"
  | JsonValue.num n => toString n
  | JsonValue.str s => "\x27" ++ s ++ "\x27"
  | JsonValue.arr xs => "[" ++ pyReprList xs ++ "]"
  | JsonValue.obj fs => "\x7b" ++ pyReprFields fs ++ "\x7d"

/-- repr of list elements, comma separated. -/
def pyReprList : List JsonValue → String
  | [] => ""
  | [x] => pyRepr x
  | x :: y :: xs => pyRepr x ++ ", " ++ pyReprList (y :: xs)

/-- repr of dict items, comma separated. -/
def pyReprFields : List (String × JsonValue) → String
  | [] => ""
  | [kv] => "\x27" ++ kv.1 ++ "\x27: " ++ pyRepr kv.2
  | kv :: kv2 :: xs => "\x27" ++ kv.1 ++ "\x27: " ++ pyRepr kv.2 ++ ", " ++ pyReprFields (kv2 :: xs)

end

/-- Python str() of a decoded JSON value, as interpolated by f-strings:
a string is itself, anything else is its repr. -/
def pyStr : JsonValue → String
  | JsonValue.str s => s
  | v => pyRepr v

/-! ## Data model (src/models.py, src/config.py) -/

/-- A chat message: role ("system" / "user" / "assistant") and content. -/
structure ChatMessage where
  role : String
  content : String
deriving Repr, DecidableEq

/-- The normalized response shape every provider client produces. -/
structure ModelResponse where
  content : String
  model : String
  tokens_used : Nat
  finish_reason : String
deriving Repr, DecidableEq

/-- Information about an LLM model (src/config.py). -/
structure ModelInfo where
  name : String
  provider : String
  context_length : Nat
  speed : String
  capabilities : List String
deriving Repr, DecidableEq

/-- The MODELS table of src/config.py. -/
def MODELS : List (String × ModelInfo) :=
  [("llama-3.1-70b-versatile",
    ModelInfo.mk ("llama-3.1-70b-versatile") ("groq") 131072 ("fast")
      [("chat"), ("code"), ("analysis"), ("reasoning")]),
   ("llama-3.1-8b-instant",
    ModelInfo.mk ("llama-3.1-8b-instant") ("groq") 131072 ("fast")
      [("chat"), ("quick-tasks")]),
   ("mixtral-8x7b-32768",
    ModelInfo.mk ("mixtral-8x7b-32768") ("groq") 32768 ("fast")
      [("chat"), ("code"), ("multilingual")]),
   ("gemma2-9b-it",
    ModelInfo.mk ("gemma2-9b-it") ("groq") 8192 ("fast")
      [("chat"), ("quick-tasks")]),
   ("ollama/llama3.1",
    ModelInfo.mk ("llama3.1") ("ollama") 128000 ("medium")
      [("chat"), ("code"), ("offline")]),
   ("ollama/mistral",
    ModelInfo.mk ("mistral") ("ollama") 32000 ("medium")
      [("chat"), ("code"), ("offline")])]

/-- Lookup in the MODELS table (the Python `model in MODELS` /
`MODELS[model]` pair). -/
def MODELS_find (m : String) : Option ModelInfo :=
  (MODELS.find? (fun p => p.1 == m)).map (fun p => p.2)

/-- config.default_model from src/config.py. -/
def config_default_model : String := "llama-3.1-70b-versatile"

/-- config.max_iterations from src/config.py. -/
def config_max_iterations : Nat := 10

/-! ## Tool layer (src/agent/tools, consumed by Agent._execute_tool)

The individual tool implementations are external collaborators: each is
embedded as a parameter that either returns its value or raises (Except).
The argument values handed to them are whatever JSON values the directive
carried, mirroring the dynamic typing of the source. -/

/-- A directory entry as produced by FileOpsTool.list_directory, with the
fields Agent._execute_tool reads. -/
structure FileInfo where
  name : String
  is_dir : Bool
deriving Repr, DecidableEq

/-- The result shape of CodeExecutor.execute_python / execute_shell. -/
structure ExecutionResult where
  output : String
  error : String
  return_code : Int
deriving Repr, DecidableEq

/-- The tool implementations available to the agent, as fallible external
calls. -/
structure ToolSuite where
  web_search : JsonValue → JsonValue → Except String String
  read_file : JsonValue → Except String String
  write_file : JsonValue → JsonValue → Except String String
  list_directory : JsonValue → Except String (List FileInfo)
  execute_python : JsonValue → Except String ExecutionResult
  execute_shell : JsonValue → Except String ExecutionResult

/-- Python args.get(key, default): a KeyError-free lookup on a dict, but an
AttributeError when the arguments value is not a dict. -/
def argGet (args : JsonValue) (k : String) (d : JsonValue) : Except String JsonValue :=
  match args with
  | JsonValue.obj fields => Except.ok (dictGet fields k d)
  | _ => Except.error ("AttributeError")

/-- The try-block body of Agent._execute_tool: dispatch on the tool name,
call the implementation, and format its result; an unregistered name
produces the fixed unknown-tool text (not an exception). -/
def executeBody (tools : ToolSuite) (tc : ToolCall) : Except String String :=
  let name := tc.name
  let args := tc.arguments
  if jsonEqStr name ("web_search") then do
    let q ← argGet args ("query") (JsonValue.str (""))
    let n ← argGet args ("num_results") (JsonValue.num 5)
    tools.web_search q n
  else if jsonEqStr name ("read_file") then do
    let p ← argGet args ("path") (JsonValue.str (""))
    tools.read_file p
  else if jsonEqStr name ("write_file") then do
    let p ← argGet args ("path") (JsonValue.str (""))
    let c ← argGet args ("content") (JsonValue.str (""))
    tools.write_file p c
  else if jsonEqStr name ("list_directory") then do
    let p ← argGet args ("path") (JsonValue.str (""))
    let files ← tools.list_directory p
    Except.ok (joinSep ("\n")
      (files.map (fun f => (if f.is_dir then ("[DIR]") else ("[FILE]")) ++ " " ++ f.name)))
  else if jsonEqStr name ("execute_python") then do
    let c ← argGet args ("code") (JsonValue.str (""))
    let er ← tools.execute_python c
    Except.ok ("Output: " ++ er.output ++ "\n" ++
      (if er.error != "" then "Error: " ++ er.error ++ "\n" else "") ++
      "Return code: " ++ toString er.return_code)
  else if jsonEqStr name ("execute_shell") then do
    let c ← argGet args ("command") (JsonValue.str (""))
    let er ← tools.execute_shell c
    Except.ok ("Output: " ++ er.output ++ "\n" ++
      (if er.error != "" then "Error: " ++ er.error else ""))
  else
    Except.ok ("Unknown tool: " ++ pyStr name)

/-- `Agent._execute_tool`: run the body, convert any exception into a
descriptive result string, store the result on the ToolCall, and return
it.  The returned pair is (result, updated tool call). -/
def execute_tool (tools : ToolSuite) (tc : ToolCall) : String × ToolCall :=
  let result :=
    match executeBody tools tc with
    | Except.ok r => r
    | Except.error e => "Error executing " ++ pyStr tc.name ++ ": " ++ e
  (result, { tc with result := some result })

/-! ## The agent loop (src/agent/agent.py) -/

/-- The agent status enumeration. -/
inductive AgentStatus where
  | IDLE : AgentStatus
  | THINKING : AgentStatus
  | TOOL_CALLING : AgentStatus
  | RESPONDING : AgentStatus
deriving Repr, DecidableEq

/-- The events yielded by Agent.chat, with the payloads the source puts in
each dictionary. -/
inductive AgentEvent where
  | status (s : String) (iteration : Nat) : AgentEvent
  | chunk (content : String) : AgentEvent
  | tool_call (name : JsonValue) (arguments : JsonValue) : AgentEvent
  | tool_result (name : JsonValue) (result : String) : AgentEvent
  | done (full_response : String) : AgentEvent
deriving Repr

/-- The exceptions that can escape Agent.chat: the AttributeError from
_parse_tool_calls on a non-object payload, or an exception raised by the
orchestrator stream. -/
inductive AgentError where
  | attributeError : AgentError
  | streamError (msg : String) : AgentError
deriving Repr, DecidableEq

/-- One call to orchestrator.chat_stream, seen from the agent: the chunks
the stream yields, then optionally an exception it raises. -/
structure StreamBehavior where
  chunks : List String
  failure : Option String
deriving Repr

/-- The system prompt of src/agent/agent.py. -/
def SYSTEM_PROMPT : String :=
  "Tu es Antigravity Ultra, une IA autonome ultra-performante créée par Antigravity Labs.\n\nTu as accès aux outils suivants:\n\n1. **web_search(query)**: Recherche sur le web. Utilise pour des informations actuelles.\n2. **read_file(path)**: Lire un fichier.\n3. **write_file(path, content)**: Écrire dans un fichier.\n4. **list_directory(path)**: Lister le contenu d\x27un dossier.\n5. **execute_python(code)**: Exécuter du code Python.\n6. **execute_shell(command)**: Exécuter une commande shell.\n\nPour utiliser un outil, utilise ce format EXACT dans ta réponse:\n```tool\n\x7b\"name\": \"nom_outil\", \"arguments\": \x7b\"arg1\": \"valeur1\"\x7d\x7d\n```\n\nTu peux appeler plusieurs outils dans une même réponse. Après avoir reçu les résultats, continue ton raisonnement.\n\nCaractéristiques:\n- Tu es proactif et résous les problèmes de manière autonome\n- Tu expliques ton raisonnement clairement\n- Tu utilises les outils quand c\x27est pertinent\n- Tu réponds en français par défaut\n- Tu es précis, efficace et utile\n\nRéponds à l\x27utilisateur de manière complète et utile."

/-- The two synthetic turns appended to the working message list after a
tool round: the assistant's raw turn text and a user-role message framing
the tool results. -/
def nextMessages (msgs : List ChatMessage) (current : String)
    (results : List String) : List ChatMessage :=
  msgs ++ [ChatMessage.mk ("assistant") current,
    ChatMessage.mk ("user")
      ("Résultats des outils:\n\n" ++ joinSep ("\n\n") results ++
        "\n\nContinue ta réponse.")]

/-- The tool-execution for-loop of one iteration of Agent.chat: for each
call, a tool_call event, the execution, a tool_result event, and the
formatted line collected into tool_results. -/
def runTools (tools : ToolSuite) : List ToolCall → List AgentEvent × List String
  | [] => ([], [])
  | tc :: rest =>
    let r := execute_tool tools tc
    let rec2 := runTools tools rest
    (AgentEvent.tool_call tc.name tc.arguments ::
       AgentEvent.tool_result tc.name r.1 :: rec2.1,
     ("Tool \x27" ++ pyStr tc.name ++ "\x27 result:\n" ++ r.1) :: rec2.2)

/-- What one run of the while loop of Agent.chat produces. -/
structure LoopOut where
  events : List AgentEvent
  full : String
  status : AgentStatus
  failure : Option AgentError
deriving Repr

/-- The while loop of Agent.chat.  Arguments: working message list,
iteration counter, remaining iterations (max_iterations - iteration),
accumulated full_response, current status. -/
def chatLoop (tools : ToolSuite) (oracle : List ChatMessage → Nat → StreamBehavior) :
    List ChatMessage → Nat → Nat → String → AgentStatus → LoopOut
  | _, _, 0, full, st => LoopOut.mk [] full st none
  | messages, iteration, r + 1, full, _ =>
    let iter := iteration + 1
    let sb := oracle messages iter
    let evs0 := AgentEvent.status ("thinking") iter :: sb.chunks.map AgentEvent.chunk
    match sb.failure with
    | some e => LoopOut.mk evs0 full AgentStatus.THINKING (some (AgentError.streamError e))
    | none =>
      let current := strConcat sb.chunks
      let full2 := full ++ current
      match parse_tool_calls current with
      | Except.error _ =>
        LoopOut.mk evs0 full2 AgentStatus.THINKING (some AgentError.attributeError)
      | Except.ok [] => LoopOut.mk evs0 full2 AgentStatus.THINKING none
      | Except.ok (tc :: tcs) =>
        let tr := runTools tools (tc :: tcs)
        let messages2 := nextMessages messages current tr.2
        let rest := chatLoop tools oracle messages2 iter r full2 AgentStatus.TOOL_CALLING
        LoopOut.mk (evs0 ++ tr.1 ++ rest.events) rest.full rest.status rest.failure

/-- The observable outcome of one Agent.chat call: the events yielded, the
conversation afterwards, the status field afterwards, and the exception
that escaped the generator, if any. -/
structure ChatOutcome where
  events : List AgentEvent
  conversation : List ChatMessage
  status : AgentStatus
  failure : Option AgentError
deriving Repr

/-- Agent.chat: append the user message, build the working message list
with the system prompt, run the bounded loop, and on normal completion
append the assistant message, reset the status and emit done.  On an
escaped exception the per-turn cleanup is skipped. -/
def Agent.chat (tools : ToolSuite) (oracle : List ChatMessage → Nat → StreamBehavior)
    (max_iterations : Nat) (conversation : List ChatMessage) (status0 : AgentStatus)
    (message : String) : ChatOutcome :=
  let conv1 := conversation ++ [ChatMessage.mk ("user") message]
  let messages := ChatMessage.mk ("system") SYSTEM_PROMPT :: conv1
  let lr := chatLoop tools oracle messages 0 max_iterations ("") status0
  match lr.failure with
  | some e => ChatOutcome.mk lr.events conv1 lr.status (some e)
  | none =>
    ChatOutcome.mk (lr.events ++ [AgentEvent.done lr.full])
      (conv1 ++ [ChatMessage.mk ("assistant") lr.full]) AgentStatus.IDLE none

/-! ## Model orchestration (src/models.py) -/

/-- The collaborators of ModelOrchestrator.chat: the Groq client call, the
memoized Ollama availability answer, and the Ollama client call. -/
structure OrchestratorDeps where
  groq_chat : List ChatMessage → String → Except String ModelResponse
  ollama_available : Bool
  ollama_chat : List ChatMessage → String → Except String ModelResponse

/-- `model = model or config.default_model` (None and the empty string are
falsy). -/
def resolveModel (modelArg : Option String) : String :=
  match modelArg with
  | none => config_default_model
  | some s => if s == "" then config_default_model else s

/-- Python str.replace: replace every occurrence of a (non-empty) pattern.
Fuel-driven structural recursion; the fuel is the text length. -/
def replaceAux : Nat → List Char → List Char → List Char → List Char
  | 0, _, _, cs => cs
  | fuel + 1, pat, rep, cs =>
    match cs with
    | [] => []
    | c :: cs2 =>
      if startsWith pat (c :: cs2) then
        rep ++ replaceAux fuel pat rep ((c :: cs2).drop pat.length)
      else c :: replaceAux fuel pat rep cs2

/-- Python str.replace on strings. -/
def pyReplace (s pat rep : String) : String :=
  String.mk (replaceAux s.data.length pat.data rep.data s.data)

/-- Python str.startswith. -/
def pyStartsWith (s p : String) : Bool := startsWith p.data s.data

/-- The best-effort Ollama model mapping of the fallback path. -/
def ollamaModelOf (model : String) : String :=
  if pyStartsWith model ("ollama/") then pyReplace model ("ollama/") ("") else "llama3.1"

/-- ModelOrchestrator.chat: try Groq first when the model is registered as
a Groq model, fall back to Ollama when it is available, and raise
RuntimeError when everything is exhausted. -/
def ModelOrchestrator.chat (deps : OrchestratorDeps) (messages : List ChatMessage)
    (modelArg : Option String) : Except String ModelResponse :=
  let model := resolveModel modelArg
  let groqTried : Option (Except String ModelResponse) :=
    match MODELS_find model with
    | some info =>
      if info.provider == "groq" then some (deps.groq_chat messages model) else none
    | none => none
  match groqTried with
  | some (Except.ok r) => Except.ok r
  | _ =>
    if deps.ollama_available then
      match deps.ollama_chat messages (ollamaModelOf model) with
      | Except.ok r => Except.ok r
      | Except.error _ => Except.error ("No LLM provider available")
    else Except.error ("No LLM provider available")

/-- The memoization state of OllamaClient: the `_available` field. -/
structure OllamaClient where
  _available : Option Bool
deriving Repr, DecidableEq

/-- What one probe request against the local runtime would produce: a
response with a status code, or a raised exception. -/
inductive ProbeResult where
  | resp (status_code : Nat) : ProbeResult
  | exn (msg : String) : ProbeResult
deriving Repr, DecidableEq

/-- OllamaClient.is_available: return the cached answer when present,
otherwise issue one probe, cache its verdict and return it.  The probe
argument is what the runtime would answer if a request were issued now;
the cached path never consults it. -/
def OllamaClient.is_available (c : OllamaClient) (probe : ProbeResult) :
    Bool × OllamaClient :=
  match c._available with
  | some b => (b, c)
  | none =>
    match probe with
    | ProbeResult.resp code => (code == 200, OllamaClient.mk (some (code == 200)))
    | ProbeResult.exn _ => (false, OllamaClient.mk (some false))

/-! ## Streaming normalization (src/models.py, src/huggingface_client.py) -/

/-- Python indexing value[key]: KeyError when an object lacks the key,
TypeError when the value is not an object. -/
def jsonIdx (v : JsonValue) (k : String) : Except String JsonValue :=
  match v with
  | JsonValue.obj fields =>
    match lookupLast fields k with
    | some w => Except.ok w
    | none => Except.error ("KeyError")
  | _ => Except.error ("TypeError")

/-- Python indexing value[i] on a decoded JSON value. -/
def jsonAt (v : JsonValue) (i : Nat) : Except String JsonValue :=
  match v with
  | JsonValue.arr xs =>
    match xs.get? i with
    | some w => Except.ok w
    | none => Except.error ("IndexError")
  | _ => Except.error ("TypeError")

/-- `chunk["choices"][0]["delta"].get("content")` from GroqClient.chat_stream. -/
def deltaContent (v : JsonValue) : Except String (Option JsonValue) := do
  let choices ← jsonIdx v ("choices")
  let c0 ← jsonAt choices 0
  let delta ← jsonIdx c0 ("delta")
  match delta with
  | JsonValue.obj fields => Except.ok (lookupLast fields ("content"))
  | _ => Except.error ("AttributeError")

/-- GroqClient.chat_stream over the lines of the event-stream body: keep
data lines, stop at the [DONE] sentinel, skip undecodable payloads and
empty deltas, yield truthy string contents.  Shape errors outside
json.JSONDecodeError propagate, as in the source. -/
def GroqClient.chat_stream : List String → Except String (List String)
  | [] => Except.ok []
  | line :: rest =>
    if pyStartsWith line ("data: ") then
      let data := line.data.drop 6
      if data == ("[DONE]").data then Except.ok []
      else
        match loads data with
        | none => GroqClient.chat_stream rest
        | some v =>
          match deltaContent v with
          | Except.error e => Except.error e
          | Except.ok none => GroqClient.chat_stream rest
          | Except.ok (some c) =>
            if pyTruthy c then
              match c with
              | JsonValue.str s =>
                match GroqClient.chat_stream rest with
                | Except.ok tail => Except.ok (s :: tail)
                | Except.error e => Except.error e
              | _ => Except.error ("TypeError")
            else GroqClient.chat_stream rest
    else GroqClient.chat_stream rest

/-- Python str.split() with no argument: split on whitespace runs and drop
empty fields. -/
def pySplitAux : List Char → List Char → List (List Char)
  | [], acc => if acc.isEmpty then [] else [acc.reverse]
  | c :: cs, acc =>
    if isPySpace c then
      if acc.isEmpty then pySplitAux cs [] else acc.reverse :: pySplitAux cs []
    else pySplitAux cs (c :: acc)

/-- Python str.split() on a string. -/
def pySplit (s : String) : List String :=
  (pySplitAux s.data []).map String.mk

/-- HuggingFaceClient.chat_stream: perform the full (whole-response) call,
then re-emit the content word by word with a trailing space on every word
but the last; a failed call yields one error-text chunk. -/
def HuggingFaceClient.chat_stream (chatResult : Except String String) : List String :=
  match chatResult with
  | Except.ok content =>
    let words := pySplit content
    words.enum.map (fun iw => iw.2 ++ (if iw.1 < words.length - 1 then " " else ""))
  | Except.error e => ["Erreur (Tous les modèles gratuits ont échoué): " ++ e]

/-- A tool suite whose every call raises, for concrete runs that must not
reach a tool. -/
def noTools : ToolSuite :=
  ToolSuite.mk (fun _ _ => Except.error ("unavailable"))
    (fun _ => Except.error ("unavailable"))
    (fun _ _ => Except.error ("unavailable"))
    (fun _ => Except.error ("unavailable"))
    (fun _ => Except.error ("unavailable"))
    (fun _ => Except.error ("unavailable"))

example :
    (Agent.chat noTools (fun _ _ => StreamBehavior.mk [("Bon"), ("jour")] none) 10 []
        AgentStatus.IDLE ("salut")).events =
      [AgentEvent.status ("thinking") 1, AgentEvent.chunk ("Bon"),
        AgentEvent.chunk ("jour"), AgentEvent.done ("Bonjour")] := rfl

example :
    HuggingFaceClient.chat_stream (Except.ok ("a\nb")) = [("a "), ("b")] := rfl

example :
    GroqClient.chat_stream
      [("data: \x7b\"choices\": [\x7b\"delta\": \x7b\"content\": \"Hel\"\x7d\x7d]\x7d"),
       ("data: \x7b\"choices\": [\x7b\"delta\": \x7b\"content\": \"lo\"\x7d\x7d]\x7d"),
       ("data: [DONE]")] = Except.ok [("Hel"), ("lo")] := rfl

/-! ## Observables of a chat run, used to state the claims -/

/-- Is this event the done event? -/
def isDoneEv : AgentEvent → Bool
  | AgentEvent.done _ => true
  | _ => false

/-- Is this event a status (thinking) event?  One such event is emitted per
model call, at the top of each loop iteration. -/
def isStatusEv : AgentEvent → Bool
  | AgentEvent.status _ _ => true
  | _ => false

/-- The number of model calls observable in an event trace. -/
def countStatus (evs : List AgentEvent) : Nat := (evs.filter isStatusEv).length

/-- The iteration counters carried by the status events, in order. -/
def statusIters (evs : List AgentEvent) : List Nat :=
  evs.filterMap (fun e =>
    match e with
    | AgentEvent.status _ i => some i
    | _ => none)

/-- The chunk payloads of an event trace, in order. -/
def chunkContents (evs : List AgentEvent) : List String :=
  evs.filterMap (fun e =>
    match e with
    | AgentEvent.chunk c => some c
    | _ => none)

/-- Walk an event trace counting tool-execution rounds: a round is opened
by the first tool_call event after a status event. -/
def ctrAux : List AgentEvent → Bool → Nat
  | [], _ => 0
  | e :: rest, counted =>
    match e with
    | AgentEvent.status _ _ => ctrAux rest false
    | AgentEvent.tool_call _ _ =>
      if counted then ctrAux rest true else ctrAux rest true + 1
    | _ => ctrAux rest counted

/-- The number of tool-execution rounds observable in an event trace. -/
def countToolRounds (evs : List AgentEvent) : Nat := ctrAux evs true

/-- Is this Except a normal result? -/
def exceptOk {e a : Type} : Except e a → Bool
  | Except.ok _ => true
  | Except.error _ => false

/-- The tool calls a response text yields, none when parsing raises. -/
def callsOf (text : String) : List ToolCall :=
  match parse_tool_calls text with
  | Except.ok l => l
  | Except.error _ => []

/-- The events one non-final loop iteration emits: its status event, its
chunk events, and the events of its tool round. -/
def iterTrace (tools : ToolSuite) (chunks : List String) (iterNo : Nat) :
    List AgentEvent :=
  AgentEvent.status ("thinking") iterNo ::
    (chunks.map AgentEvent.chunk ++ (runTools tools (callsOf (strConcat chunks))).1)

/-- The concatenated response text of iterations it+1 .. it+j. -/
def fullFromResp (resp : Nat → List String) (it j : Nat) : String :=
  strConcat ((List.range j).map (fun a => strConcat (resp (it + a + 1))))

/-! ## Rendering directive texts, used to state the extraction claims -/

/-- The rendered form of one directive block. -/
def renderBlockL (payload : List Char) : List Char :=
  openTag ++ '\n' :: (payload ++ closeFence)

/-- A response text assembled from (plain, payload) segments followed by a
trailing plain tail. -/
def renderSegs : List (List Char × List Char) → List Char → List Char
  | [], tail => tail
  | seg :: rest, tail => seg.1 ++ (renderBlockL seg.2 ++ renderSegs rest tail)

/-- Plain text that cannot open or close a fence: no backtick at all. -/
def noBacktick (cs : List Char) : Bool := cs.all (fun c => c != backtick)

/-- Does the text contain the closing fence as a substring? -/
def hasCloseFence : List Char → Bool
  | [] => false
  | c :: cs => startsWith closeFence (c :: cs) || hasCloseFence cs

/-- A payload in canonical shape: nonempty, not starting with whitespace,
and not containing the closing fence. -/
def goodPayload (py : List Char) : Bool :=
  match py with
  | [] => false
  | c :: _ => !isPySpace c && !hasCloseFence py

/-- Does the name match none of the six registered tools? -/
def unknownToolName (name : JsonValue) : Bool :=
  !(jsonEqStr name ("web_search") || jsonEqStr name ("read_file") ||
    jsonEqStr name ("write_file") || jsonEqStr name ("list_directory") ||
    jsonEqStr name ("execute_python") || jsonEqStr name ("execute_shell"))

/-- The ToolCall a payload produces, none when its JSON is invalid or does
not decode to an object. -/
def callOfPayload (py : List Char) : Option ToolCall :=
  match loads (pyStrip py) with
  | some (JsonValue.obj fields) =>
    some (ToolCall.mk (dictGet fields ("name") (JsonValue.str ("")))
      (dictGet fields ("arguments") (JsonValue.obj [])) none)
  | _ => none

/-- A payload that never trips the AttributeError path: its stripped text
is invalid JSON, or decodes to an object. -/
def payloadBenign (py : List Char) : Bool :=
  match loads (pyStrip py) with
  | none => true
  | some (JsonValue.obj _) => true
  | some _ => false

/-- The delta-chunk JSON shape of the Groq event stream. -/
def chunkObj (d : String) : JsonValue :=
  JsonValue.obj [(("choices"),
    JsonValue.arr [JsonValue.obj [(("delta"),
      JsonValue.obj [(("content"), JsonValue.str d)])]])]

/-- Well-formed event-stream line lists carrying the given delta contents
and terminated by the [DONE] sentinel. -/
inductive SSELines : List String → List String → Prop where
  | stop (rest : List String) : SSELines (("data: [DONE]") :: rest) []
  | cons (line : String) (d : String) (rest : List String) (ds : List String)
      (hstart : pyStartsWith line ("data: ") = true)
      (hnotdone : (line.data.drop 6 == ("[DONE]").data) = false)
      (hload : loads (line.data.drop 6) = some (chunkObj d))
      (htail : SSELines rest ds) : SSELines (line :: rest) (d :: ds)

/-- An oracle that answers every model call with the same single chunk. -/
def plainOracle (text : String) : List ChatMessage → Nat → StreamBehavior :=
  fun _ _ => StreamBehavior.mk [text] none

/-- An oracle whose stream raises before yielding anything, as the
orchestrator does when no provider is available. -/
def failingOracle (msg : String) : List ChatMessage → Nat → StreamBehavior :=
  fun _ _ => StreamBehavior.mk [] (some msg)

/-- A two-phase mock model: one directive on the first call, plain text on
every later call. -/
def twoPhaseResp : Nat → List String :=
  fun i =>
    if i = 1 then
      [("```tool\n\x7b\"name\": \"read_file\", \"arguments\": \x7b\x7d\x7d\n```")]
    else [("Fini.")]

/-- The oracle of the two-phase mock model. -/
def twoPhaseOracle : List ChatMessage → Nat → StreamBehavior :=
  fun _ i => StreamBehavior.mk (twoPhaseResp i) none

/-! ## Basic string lemmas -/

theorem strAppend_nil (s : String) : s ++ "" = s := by
  cases s with
  | mk d => show String.mk (d ++ []) = String.mk d
            simp

theorem strAppend_assoc (a b c : String) : a ++ b ++ c = a ++ (b ++ c) := by
  cases a with
  | mk x =>
    cases b with
    | mk y =>
      cases c with
      | mk z => show String.mk ((x ++ y) ++ z) = String.mk (x ++ (y ++ z))
                simp

/-! ## Unfolding Agent.chat -/

theorem chat_eq_of_failure (tools : ToolSuite)
    (oracle : List ChatMessage → Nat → StreamBehavior) (maxit : Nat)
    (conv : List ChatMessage) (st0 : AgentStatus) (msg : String) (e : AgentError)
    (h : (chatLoop tools oracle
        (ChatMessage.mk ("system") SYSTEM_PROMPT ::
          (conv ++ [ChatMessage.mk ("user") msg])) 0 maxit ("") st0).failure = some e) :
    Agent.chat tools oracle maxit conv st0 msg =
      ChatOutcome.mk
        (chatLoop tools oracle
          (ChatMessage.mk ("system") SYSTEM_PROMPT ::
            (conv ++ [ChatMessage.mk ("user") msg])) 0 maxit ("") st0).events
        (conv ++ [ChatMessage.mk ("user") msg])
        (chatLoop tools oracle
          (ChatMessage.mk ("system") SYSTEM_PROMPT ::
            (conv ++ [ChatMessage.mk ("user") msg])) 0 maxit ("") st0).status
        (some e) := by
  simp only [Agent.chat]
  rw [h]

theorem chat_eq_of_ok (tools : ToolSuite)
    (oracle : List ChatMessage → Nat → StreamBehavior) (maxit : Nat)
    (conv : List ChatMessage) (st0 : AgentStatus) (msg : String)
    (h : (chatLoop tools oracle
        (ChatMessage.mk ("system") SYSTEM_PROMPT ::
          (conv ++ [ChatMessage.mk ("user") msg])) 0 maxit ("") st0).failure = none) :
    Agent.chat tools oracle maxit conv st0 msg =
      ChatOutcome.mk
        ((chatLoop tools oracle
          (ChatMessage.mk ("system") SYSTEM_PROMPT ::
            (conv ++ [ChatMessage.mk ("user") msg])) 0 maxit ("") st0).events ++
          [AgentEvent.done (chatLoop tools oracle
            (ChatMessage.mk ("system") SYSTEM_PROMPT ::
              (conv ++ [ChatMessage.mk ("user") msg])) 0 maxit ("") st0).full])
        (conv ++ [ChatMessage.mk ("user") msg,
          ChatMessage.mk ("assistant") (chatLoop tools oracle
            (ChatMessage.mk ("system") SYSTEM_PROMPT ::
              (conv ++ [ChatMessage.mk ("user") msg])) 0 maxit ("") st0).full])
        AgentStatus.IDLE none := by
  simp only [Agent.chat]
  rw [h]
  simp

/-! ## Unfolding one iteration of the loop -/

theorem chatLoop_succ_err (tools : ToolSuite)
    (oracle : List ChatMessage → Nat → StreamBehavior) (msgs : List ChatMessage)
    (it r : Nat) (full : String) (st : AgentStatus) (e : String)
    (hf : (oracle msgs (it + 1)).failure = some e) :
    chatLoop tools oracle msgs it (r + 1) full st =
      LoopOut.mk (AgentEvent.status ("thinking") (it + 1) ::
          (oracle msgs (it + 1)).chunks.map AgentEvent.chunk)
        full AgentStatus.THINKING (some (AgentError.streamError e)) := by
  simp only [chatLoop, hf]

theorem chatLoop_succ_attr (tools : ToolSuite)
    (oracle : List ChatMessage → Nat → StreamBehavior) (msgs : List ChatMessage)
    (it r : Nat) (full : String) (st : AgentStatus) (e2 : String)
    (hf : (oracle msgs (it + 1)).failure = none)
    (hp : parse_tool_calls (strConcat (oracle msgs (it + 1)).chunks) = Except.error e2) :
    chatLoop tools oracle msgs it (r + 1) full st =
      LoopOut.mk (AgentEvent.status ("thinking") (it + 1) ::
          (oracle msgs (it + 1)).chunks.map AgentEvent.chunk)
        (full ++ strConcat (oracle msgs (it + 1)).chunks)
        AgentStatus.THINKING (some AgentError.attributeError) := by
  simp only [chatLoop, hf, hp]

theorem chatLoop_succ_stop (tools : ToolSuite)
    (oracle : List ChatMessage → Nat → StreamBehavior) (msgs : List ChatMessage)
    (it r : Nat) (full : String) (st : AgentStatus)
    (hf : (oracle msgs (it + 1)).failure = none)
    (hp : parse_tool_calls (strConcat (oracle msgs (it + 1)).chunks) = Except.ok []) :
    chatLoop tools oracle msgs it (r + 1) full st =
      LoopOut.mk (AgentEvent.status ("thinking") (it + 1) ::
          (oracle msgs (it + 1)).chunks.map AgentEvent.chunk)
        (full ++ strConcat (oracle msgs (it + 1)).chunks)
        AgentStatus.THINKING none := by
  simp only [chatLoop, hf, hp]

theorem chatLoop_succ_tools (tools : ToolSuite)
    (oracle : List ChatMessage → Nat → StreamBehavior) (msgs : List ChatMessage)
    (it r : Nat) (full : String) (st : AgentStatus) (tc : ToolCall) (tcs : List ToolCall)
    (hf : (oracle msgs (it + 1)).failure = none)
    (hp : parse_tool_calls (strConcat (oracle msgs (it + 1)).chunks) =
      Except.ok (tc :: tcs)) :
    chatLoop tools oracle msgs it (r + 1) full st =
      LoopOut.mk
        (AgentEvent.status ("thinking") (it + 1) ::
          ((oracle msgs (it + 1)).chunks.map AgentEvent.chunk ++
            ((runTools tools (tc :: tcs)).1 ++
              (chatLoop tools oracle
                (nextMessages msgs (strConcat (oracle msgs (it + 1)).chunks)
                  (runTools tools (tc :: tcs)).2)
                (it + 1) r (full ++ strConcat (oracle msgs (it + 1)).chunks)
                AgentStatus.TOOL_CALLING).events)))
        (chatLoop tools oracle
          (nextMessages msgs (strConcat (oracle msgs (it + 1)).chunks)
            (runTools tools (tc :: tcs)).2)
          (it + 1) r (full ++ strConcat (oracle msgs (it + 1)).chunks)
          AgentStatus.TOOL_CALLING).full
        (chatLoop tools oracle
          (nextMessages msgs (strConcat (oracle msgs (it + 1)).chunks)
            (runTools tools (tc :: tcs)).2)
          (it + 1) r (full ++ strConcat (oracle msgs (it + 1)).chunks)
          AgentStatus.TOOL_CALLING).status
        (chatLoop tools oracle
          (nextMessages msgs (strConcat (oracle msgs (it + 1)).chunks)
            (runTools tools (tc :: tcs)).2)
          (it + 1) r (full ++ strConcat (oracle msgs (it + 1)).chunks)
          AgentStatus.TOOL_CALLING).failure := by
  simp only [chatLoop, hf, hp]
  simp [List.append_assoc]

/-! ## Shape lemmas about the loop trace -/

theorem runTools_events (tools : ToolSuite) : ∀ tcs : List ToolCall,
    (runTools tools tcs).1 =
      (tcs.map (fun tc => [AgentEvent.tool_call tc.name tc.arguments,
        AgentEvent.tool_result tc.name ((execute_tool tools tc).1)])).flatten
  | [] => rfl
  | tc :: rest => by
    simp only [runTools, List.map, List.flatten]
    rw [runTools_events tools rest]
    rfl

theorem filter_done_chunks (cs : List String) :
    (cs.map AgentEvent.chunk).filter isDoneEv = [] := by
  induction cs with
  | nil => rfl
  | cons c cs ih => simp [isDoneEv, ih]

theorem filter_done_runTools (tools : ToolSuite) (tcs : List ToolCall) :
    ((runTools tools tcs).1).filter isDoneEv = [] := by
  induction tcs with
  | nil => rfl
  | cons tc rest ih => simpa [runTools, isDoneEv] using ih

theorem chatLoop_no_done (tools : ToolSuite)
    (oracle : List ChatMessage → Nat → StreamBehavior) :
    ∀ (r : Nat) (msgs : List ChatMessage) (it : Nat) (full : String) (st : AgentStatus),
      (chatLoop tools oracle msgs it r full st).events.filter isDoneEv = [] := by
  intro r
  induction r with
  | zero => intro msgs it full st; rfl
  | succ r ih =>
    intro msgs it full st
    simp only [chatLoop]
    cases hf : (oracle msgs (it + 1)).failure with
    | some e => simp [isDoneEv, filter_done_chunks]
    | none =>
      cases hp : parse_tool_calls (strConcat (oracle msgs (it + 1)).chunks) with
      | error e => simp [isDoneEv, filter_done_chunks]
      | ok tcs =>
        cases tcs with
        | nil => simp [isDoneEv, filter_done_chunks]
        | cons tc rest =>
          simp [isDoneEv, filter_done_chunks, filter_done_runTools, ih]

theorem chatLoop_failure_thinking (tools : ToolSuite)
    (oracle : List ChatMessage → Nat → StreamBehavior) :
    ∀ (r : Nat) (msgs : List ChatMessage) (it : Nat) (full : String) (st : AgentStatus)
      (e : AgentError),
      (chatLoop tools oracle msgs it r full st).failure = some e →
      (chatLoop tools oracle msgs it r full st).status = AgentStatus.THINKING := by
  intro r
  induction r with
  | zero => intro msgs it full st e h; exact absurd h (by simp [chatLoop])
  | succ r ih =>
    intro msgs it full st e h
    simp only [chatLoop] at h ⊢
    cases hf : (oracle msgs (it + 1)).failure with
    | some e2 => simp [hf]
    | none =>
      simp only [hf] at h ⊢
      cases hp : parse_tool_calls (strConcat (oracle msgs (it + 1)).chunks) with
      | error e2 => simp [hp]
      | ok tcs =>
        cases tcs with
        | nil => simp [hp] at h
        | cons tc rest =>
          simp only [hp] at h ⊢
          exact ih _ _ _ _ _ h

/-! ## Claim C9 -/

/-- C9: the Ollama availability check is probed lazily on first use and
memoized: after the first is_available call, every further call returns
the same cached boolean and leaves the client state unchanged, regardless
of what a new probe would answer. -/
theorem claim9_ollama_availability_memoized (p1 p2 : ProbeResult) :
    OllamaClient.is_available
        ((OllamaClient.is_available (OllamaClient.mk none) p1).2) p2 =
      ((OllamaClient.is_available (OllamaClient.mk none) p1).1,
        (OllamaClient.is_available (OllamaClient.mk none) p1).2) := by
  cases p1 <;> rfl

/-! ## Claim C5 -/

/-- C5: Agent._execute_tool never raises past its boundary: it always
returns a result string and stores it in the ToolCall result field (never
null afterwards); an unregistered tool name yields the fixed unknown-tool
text through the normal path; and an exception raised by the dispatched
body is converted into a descriptive error-result string. -/
theorem claim5_execute_tool_total (tools : ToolSuite) (tc : ToolCall) :
    (execute_tool tools tc).2.result = some (execute_tool tools tc).1
    ∧ (unknownToolName tc.name = true →
        (execute_tool tools tc).1 = "Unknown tool: " ++ pyStr tc.name)
    ∧ (∀ e, executeBody tools tc = Except.error e →
        (execute_tool tools tc).1 = "Error executing " ++ pyStr tc.name ++ ": " ++ e) := by
  refine ⟨rfl, ?_, ?_⟩
  · intro h
    simp only [unknownToolName, Bool.not_eq_true', Bool.or_eq_false_iff] at h
    obtain ⟨⟨⟨⟨⟨h1, h2⟩, h3⟩, h4⟩, h5⟩, h6⟩ := h
    simp [execute_tool, executeBody, h1, h2, h3, h4, h5, h6]
  · intro e he
    simp [execute_tool, he]

/-- Witness for C5 at a concrete unregistered tool name. -/
theorem claim5_execute_tool_total_witness :
    (execute_tool noTools
      (ToolCall.mk (JsonValue.str ("bogus")) (JsonValue.obj []) none)).1 =
      "Unknown tool: bogus" :=
  (claim5_execute_tool_total noTools
    (ToolCall.mk (JsonValue.str ("bogus")) (JsonValue.obj []) none)).2.1 (by decide)

/-! ## Claim C6 -/

/-- C6: ModelOrchestrator.chat tries the Groq provider first when the
requested model is registered as a Groq model and returns its response on
success; on an exception from Groq it falls back to Ollama (when
available) with the best-effort model mapping; and when every provider is
exhausted or unavailable it raises the "No LLM provider available" error
instead of returning a response. -/
theorem claim6_orchestrator_fallback (deps : OrchestratorDeps)
    (messages : List ChatMessage) (modelArg : Option String) :
    (∀ info r, MODELS_find (resolveModel modelArg) = some info →
      info.provider = "groq" →
      deps.groq_chat messages (resolveModel modelArg) = Except.ok r →
      ModelOrchestrator.chat deps messages modelArg = Except.ok r)
    ∧ (∀ info e r2, MODELS_find (resolveModel modelArg) = some info →
      info.provider = "groq" →
      deps.groq_chat messages (resolveModel modelArg) = Except.error e →
      deps.ollama_available = true →
      deps.ollama_chat messages (ollamaModelOf (resolveModel modelArg)) = Except.ok r2 →
      ModelOrchestrator.chat deps messages modelArg = Except.ok r2)
    ∧ ((∀ info, MODELS_find (resolveModel modelArg) = some info →
        info.provider = "groq" →
        ∃ e, deps.groq_chat messages (resolveModel modelArg) = Except.error e) →
      (deps.ollama_available = false ∨
        ∃ e2, deps.ollama_chat messages (ollamaModelOf (resolveModel modelArg)) =
          Except.error e2) →
      ModelOrchestrator.chat deps messages modelArg =
        Except.error ("No LLM provider available")) := by
  refine ⟨?_, ?_, ?_⟩
  · intro info r hfind hprov hok
    simp [ModelOrchestrator.chat, hfind, hprov, hok]
  · intro info e r2 hfind hprov herr havail hok
    simp [ModelOrchestrator.chat, hfind, hprov, herr, havail, hok]
  · intro hgroq hollama
    cases hfind : MODELS_find (resolveModel modelArg) with
    | none =>
      cases hollama with
      | inl havail => simp [ModelOrchestrator.chat, hfind, havail]
      | inr h2 =>
        obtain ⟨e2, he2⟩ := h2
        cases havail : deps.ollama_available with
        | false => simp [ModelOrchestrator.chat, hfind, havail]
        | true => simp [ModelOrchestrator.chat, hfind, havail, he2]
    | some info =>
      cases hprov : (info.provider == "groq") with
      | false =>
        cases hollama with
        | inl havail => simp [ModelOrchestrator.chat, hfind, hprov, havail]
        | inr h2 =>
          obtain ⟨e2, he2⟩ := h2
          cases havail : deps.ollama_available with
          | false => simp [ModelOrchestrator.chat, hfind, hprov, havail]
          | true => simp [ModelOrchestrator.chat, hfind, hprov, havail, he2]
      | true =>
        obtain ⟨e, he⟩ := hgroq info hfind (by simpa using hprov)
        cases hollama with
        | inl havail => simp [ModelOrchestrator.chat, hfind, hprov, he, havail]
        | inr h2 =>
          obtain ⟨e2, he2⟩ := h2
          cases havail : deps.ollama_available with
          | false => simp [ModelOrchestrator.chat, hfind, hprov, he, havail]
          | true => simp [ModelOrchestrator.chat, hfind, hprov, he, havail, he2]

/-- Witness for C6: Groq configured to fail, Ollama available and
succeeding; the chat call returns the fallback response under the
best-effort mapped default model. -/
theorem claim6_orchestrator_fallback_witness :
    ModelOrchestrator.chat
      (OrchestratorDeps.mk (fun _ _ => Except.error ("boom")) true
        (fun _ m => Except.ok (ModelResponse.mk ("ok") m 0 ("stop"))))
      [] (some ("llama-3.1-70b-versatile")) =
      Except.ok (ModelResponse.mk ("ok") ("llama3.1") 0 ("stop")) :=
  (claim6_orchestrator_fallback
    (OrchestratorDeps.mk (fun _ _ => Except.error ("boom")) true
      (fun _ m => Except.ok (ModelResponse.mk ("ok") m 0 ("stop"))))
    [] (some ("llama-3.1-70b-versatile"))).2.1
    (ModelInfo.mk ("llama-3.1-70b-versatile") ("groq") 131072 ("fast")
      [("chat"), ("code"), ("analysis"), ("reasoning")])
    ("boom")
    (ModelResponse.mk ("ok") (ollamaModelOf ("llama-3.1-70b-versatile")) 0 ("stop"))
    rfl rfl rfl rfl rfl

/-! ## Claim C10 -/

/-- C10: when the orchestrator raises during the model-call phase, the
exception escapes Agent.chat and the per-turn cleanup is skipped: the
user message stays appended, no assistant message is appended, no done
event was emitted, and the status field is left at THINKING. -/
theorem claim10_model_failure_skips_cleanup (tools : ToolSuite)
    (oracle : List ChatMessage → Nat → StreamBehavior) (maxit : Nat)
    (conv : List ChatMessage) (st0 : AgentStatus) (msg : String) (e : String)
    (h : (Agent.chat tools oracle maxit conv st0 msg).failure =
      some (AgentError.streamError e)) :
    (Agent.chat tools oracle maxit conv st0 msg).conversation =
        conv ++ [ChatMessage.mk ("user") msg]
    ∧ (Agent.chat tools oracle maxit conv st0 msg).status = AgentStatus.THINKING
    ∧ (Agent.chat tools oracle maxit conv st0 msg).events.filter isDoneEv = [] := by
  cases hlf : (chatLoop tools oracle
      (ChatMessage.mk ("system") SYSTEM_PROMPT ::
        (conv ++ [ChatMessage.mk ("user") msg])) 0 maxit ("") st0).failure with
  | none =>
    rw [chat_eq_of_ok tools oracle maxit conv st0 msg hlf] at h
    simp at h
  | some e0 =>
    rw [chat_eq_of_failure tools oracle maxit conv st0 msg e0 hlf] at h ⊢
    exact ⟨rfl,
      chatLoop_failure_thinking tools oracle maxit _ 0 ("") st0 e0 hlf,
      chatLoop_no_done tools oracle maxit _ 0 ("") st0⟩

/-- Witness for C10 with a stream that raises at once. -/
theorem claim10_model_failure_skips_cleanup_witness :
    (Agent.chat noTools (failingOracle ("No LLM provider available for streaming"))
        10 [] AgentStatus.IDLE ("salut")).conversation =
      [ChatMessage.mk ("user") ("salut")] :=
  (claim10_model_failure_skips_cleanup noTools
    (failingOracle ("No LLM provider available for streaming")) 10 []
    AgentStatus.IDLE ("salut") ("No LLM provider available for streaming") rfl).1

/-! ## Claim C8 -/

theorem strNil_append (s : String) : "" ++ s = s := by
  cases s with
  | mk d => show String.mk ([] ++ d) = String.mk d
            simp

theorem chunkContents_map_chunk (cs : List String) :
    chunkContents (cs.map AgentEvent.chunk) = cs := by
  induction cs with
  | nil => rfl
  | cons c cs ih => simp [chunkContents] at ih ⊢; exact ih

theorem chunkContents_runTools (tools : ToolSuite) (tcs : List ToolCall) :
    chunkContents ((runTools tools tcs).1) = [] := by
  induction tcs with
  | nil => rfl
  | cons tc rest ih => simp [runTools, chunkContents] at ih ⊢; exact ih

theorem chunkContents_append (a b : List AgentEvent) :
    chunkContents (a ++ b) = chunkContents a ++ chunkContents b := by
  simp [chunkContents]

theorem chunkContents_status (s : String) (i : Nat) (l : List AgentEvent) :
    chunkContents (AgentEvent.status s i :: l) = chunkContents l := by
  simp [chunkContents]

theorem strConcat_append (a b : List String) :
    strConcat (a ++ b) = strConcat a ++ strConcat b := by
  induction a with
  | nil => exact (strNil_append (strConcat b)).symm
  | cons s a ih =>
    simp only [List.cons_append, strConcat, List.append_eq]
    rw [ih, strAppend_assoc]

theorem chatLoop_full_eq_chunks (tools : ToolSuite)
    (oracle : List ChatMessage → Nat → StreamBehavior) :
    ∀ (r : Nat) (msgs : List ChatMessage) (it : Nat) (full : String) (st : AgentStatus),
      (chatLoop tools oracle msgs it r full st).failure = none →
      (chatLoop tools oracle msgs it r full st).full =
        full ++ strConcat (chunkContents (chatLoop tools oracle msgs it r full st).events) := by
  intro r
  induction r with
  | zero => intro msgs it full st _; exact (strAppend_nil full).symm
  | succ r ih =>
    intro msgs it full st h
    simp only [chatLoop] at h ⊢
    cases hf : (oracle msgs (it + 1)).failure with
    | some e => simp [hf] at h
    | none =>
      simp only [hf] at h ⊢
      cases hp : parse_tool_calls (strConcat (oracle msgs (it + 1)).chunks) with
      | error e => simp [hp] at h
      | ok tcs =>
        cases tcs with
        | nil =>
          simp only [hp, chunkContents_status, chunkContents_map_chunk]
        | cons tc rest =>
          simp only [hp] at h ⊢
          rw [chunkContents_append, chunkContents_append, chunkContents_status,
            chunkContents_map_chunk, chunkContents_runTools, List.append_nil,
            strConcat_append, ih _ _ _ _ h, strAppend_assoc]

/-- C8: after a normally completed Agent.chat turn, the true conversation
gains exactly the initial user message and one assistant message whose
content is the concatenation of every model chunk of the turn; none of the
intermediate synthetic re-prompting turns are persisted. -/
theorem claim8_single_assistant_append (tools : ToolSuite)
    (oracle : List ChatMessage → Nat → StreamBehavior) (maxit : Nat)
    (conv : List ChatMessage) (st0 : AgentStatus) (msg : String)
    (h : (Agent.chat tools oracle maxit conv st0 msg).failure = none) :
    (Agent.chat tools oracle maxit conv st0 msg).conversation =
      conv ++ [ChatMessage.mk ("user") msg,
        ChatMessage.mk ("assistant")
          (strConcat (chunkContents (Agent.chat tools oracle maxit conv st0 msg).events))] := by
  cases hlf : (chatLoop tools oracle
      (ChatMessage.mk ("system") SYSTEM_PROMPT ::
        (conv ++ [ChatMessage.mk ("user") msg])) 0 maxit ("") st0).failure with
  | some e0 =>
    rw [chat_eq_of_failure tools oracle maxit conv st0 msg e0 hlf] at h
    simp at h
  | none =>
    rw [chat_eq_of_ok tools oracle maxit conv st0 msg hlf]
    have hfull := chatLoop_full_eq_chunks tools oracle maxit
      (ChatMessage.mk ("system") SYSTEM_PROMPT ::
        (conv ++ [ChatMessage.mk ("user") msg])) 0 ("") st0 hlf
    rw [strNil_append] at hfull
    simp only [chunkContents_append]
    rw [show chunkContents [AgentEvent.done (chatLoop tools oracle
        (ChatMessage.mk ("system") SYSTEM_PROMPT ::
          (conv ++ [ChatMessage.mk ("user") msg])) 0 maxit ("") st0).full] = []
      from rfl]
    rw [List.append_nil, ← hfull]

/-- Witness for C8 on a one-iteration directive-free run. -/
theorem claim8_single_assistant_append_witness :
    (Agent.chat noTools (plainOracle ("Bonjour")) 10 [] AgentStatus.IDLE
        ("salut")).conversation =
      [ChatMessage.mk ("user") ("salut"), ChatMessage.mk ("assistant") ("Bonjour")] :=
  (claim8_single_assistant_append noTools (plainOracle ("Bonjour")) 10 []
    AgentStatus.IDLE ("salut") rfl).trans (by decide)

/-! ## Claim C7 -/

/-- The word-by-word re-emission of simulated streaming concatenates to
the single-space joined word list. -/
theorem hf_sim_concat :
    ∀ (words : List String) (n L : Nat), n + words.length = L →
      strConcat ((List.enumFrom n words).map
        (fun iw => iw.2 ++ (if iw.1 < L - 1 then " " else ""))) =
        joinSep (" ") words := by
  intro words
  induction words with
  | nil => intro n L _; rfl
  | cons w ws ih =>
    intro n L hL
    cases ws with
    | nil =>
      simp only [List.length_cons, List.length_nil] at hL
      simp only [List.enumFrom, List.map, strConcat, joinSep]
      rw [if_neg (by omega : ¬ n < L - 1)]
      rw [strAppend_nil, strAppend_nil]
    | cons w2 ws2 =>
      have hlt : n < L - 1 := by
        simp only [List.length_cons] at hL
        omega
      have ih2 := ih (n + 1) L (by simp only [List.length_cons] at hL ⊢; omega)
      simp only [List.enumFrom, List.map, strConcat] at ih2 ⊢
      rw [ih2, if_pos hlt]
      rfl

/-- C7 (amended): the chunk sequence of the simulated streaming path
concatenates to the whitespace-normalized response text (single spaces
between words), hence to the response text itself exactly when that text
is already whitespace-normal; the true incremental streaming path
concatenates to the full delta text. -/
theorem claim7_streaming_concat :
    (∀ content : String,
      strConcat (HuggingFaceClient.chat_stream (Except.ok content)) =
        joinSep (" ") (pySplit content))
    ∧ (∀ content : String, joinSep (" ") (pySplit content) = content →
      strConcat (HuggingFaceClient.chat_stream (Except.ok content)) = content)
    ∧ (∀ (lines ds : List String), SSELines lines ds →
      ∃ out, GroqClient.chat_stream lines = Except.ok out ∧
        strConcat out = strConcat ds) := by
  have hsim : ∀ content : String,
      strConcat (HuggingFaceClient.chat_stream (Except.ok content)) =
        joinSep (" ") (pySplit content) := by
    intro content
    simp only [HuggingFaceClient.chat_stream, List.enum]
    exact hf_sim_concat (pySplit content) 0 (pySplit content).length (Nat.zero_add _)
  refine ⟨hsim, ?_, ?_⟩
  · intro content hnorm
    rw [hsim content, hnorm]
  · intro lines ds h
    induction h with
    | stop rest => exact ⟨[], rfl, rfl⟩
    | cons line d rest ds hstart hnotdone hload htail ih =>
      obtain ⟨out, hout, hcat⟩ := ih
      have hdelta : deltaContent (chunkObj d) = Except.ok (some (JsonValue.str d)) := rfl
      have hstep : GroqClient.chat_stream (line :: rest) =
          (if pyTruthy (JsonValue.str d) then
            match GroqClient.chat_stream rest with
            | Except.ok tail => Except.ok (d :: tail)
            | Except.error e => Except.error e
          else GroqClient.chat_stream rest) := by
        simp [GroqClient.chat_stream, hstart, hnotdone, hload, hdelta]
      by_cases hd : d = ""
      · refine ⟨out, ?_, ?_⟩
        · rw [hstep, hout]
          subst hd
          rfl
        · rw [hcat]
          subst hd
          exact (strNil_append (strConcat ds)).symm
      · have htruthy : pyTruthy (JsonValue.str d) = true := by
          simp [pyTruthy, hd]
        refine ⟨d :: out, ?_, ?_⟩
        · rw [hstep, htruthy, hout]
          rfl
        · simp only [strConcat, hcat]

/-- The claim C7 as stated is false on the simulated path: a response text
whose words are separated by a newline re-streams with a plain space, so
the concatenation differs from the provider text. -/
theorem claim7_streaming_concat_counterexample :
    strConcat (HuggingFaceClient.chat_stream (Except.ok ("a\nb"))) ≠ "a\nb" := by
  decide

/-- Witness for C7 on a normalized text and a two-line event stream. -/
theorem claim7_streaming_concat_witness :
    strConcat (HuggingFaceClient.chat_stream (Except.ok ("a b"))) = "a b"
    ∧ ∃ out, GroqClient.chat_stream
        [("data: \x7b\"choices\": [\x7b\"delta\": \x7b\"content\": \"Hel\"\x7d\x7d]\x7d"),
         ("data: [DONE]")] = Except.ok out ∧
        strConcat out = strConcat [("Hel")] :=
  ⟨claim7_streaming_concat.2.1 ("a b") (by decide),
   claim7_streaming_concat.2.2
     [("data: \x7b\"choices\": [\x7b\"delta\": \x7b\"content\": \"Hel\"\x7d\x7d]\x7d"),
      ("data: [DONE]")] [("Hel")]
     (SSELines.cons _ ("Hel") _ _ (by decide) (by decide) (by rfl)
       (SSELines.stop []))⟩

/-! ## Scanner lemmas: the fuel of findBlocksAux is irrelevant -/

theorem startsWith_self_append (p x : List Char) : startsWith p (p ++ x) = true := by
  induction p with
  | nil => rfl
  | cons c cs ih => simp [startsWith, ih]

theorem splitAtCloseFence_length :
    ∀ (cs g r : List Char), splitAtCloseFence cs = some (g, r) → r.length < cs.length := by
  intro cs
  induction cs with
  | nil => intro g r h; simp [splitAtCloseFence] at h
  | cons c cs ih =>
    intro g r h
    simp only [splitAtCloseFence] at h
    split at h
    · simp only [Option.some.injEq, Prod.mk.injEq] at h
      obtain ⟨-, hr⟩ := h
      subst hr
      have := List.length_drop 3 cs
      simp only [List.length_cons]
      omega
    · cases hrec : splitAtCloseFence cs with
      | none => rw [hrec] at h; simp at h
      | some gr =>
        rw [hrec] at h
        cases gr with
        | mk g2 r2 =>
          simp only [Option.some.injEq, Prod.mk.injEq] at h
          obtain ⟨-, hr⟩ := h
          subst hr
          have := ih g2 r2 hrec
          simp only [List.length_cons]
          omega

theorem tryFrom_length :
    ∀ (m : Nat) (cs g r : List Char), tryFrom cs m = some (g, r) → r.length < cs.length := by
  intro m
  induction m with
  | zero =>
    intro cs g r h
    simp only [tryFrom] at h
    split at h
    · have := splitAtCloseFence_length (cs.drop 1) g r h
      have h2 := List.length_drop 1 cs
      omega
    · simp at h
  | succ m ih =>
    intro cs g r h
    simp only [tryFrom] at h
    by_cases hc : ((cs.take (m + 1)).all isPySpace && cs.get? (m + 1) == some '\n') = true
    · rw [if_pos hc] at h
      cases hsp : splitAtCloseFence (cs.drop (m + 2)) with
      | none => rw [hsp] at h; exact ih cs g r h
      | some gr =>
        rw [hsp] at h
        cases gr with
        | mk g2 r2 =>
          simp only [Option.some.injEq] at h
          have hlen := splitAtCloseFence_length (cs.drop (m + 2)) g2 r2 hsp
          have h2 := List.length_drop (m + 2) cs
          cases h
          omega
    · rw [if_neg hc] at h
      exact ih cs g r h

theorem matchToolAt_length (cs g r : List Char)
    (h : matchToolAt cs = some (g, r)) : r.length < cs.length := by
  simp only [matchToolAt] at h
  split at h
  · have := tryFrom_length (wsRunLen (cs.drop 7)) (cs.drop 7) g r h
    have h2 := List.length_drop 7 cs
    omega
  · simp at h

theorem findBlocksAux_irrel :
    ∀ (f1 : Nat) (cs : List Char) (f2 : Nat), cs.length ≤ f1 → cs.length ≤ f2 →
      findBlocksAux f1 cs = findBlocksAux f2 cs := by
  intro f1
  induction f1 using Nat.strong_induction_on with
  | _ f1 ih =>
    intro cs f2 h1 h2
    cases cs with
    | nil => cases f1 <;> cases f2 <;> rfl
    | cons c cs =>
      cases f1 with
      | zero => simp at h1
      | succ f1 =>
        cases f2 with
        | zero => simp at h2
        | succ f2 =>
          simp only [findBlocksAux]
          cases hm : matchToolAt (c :: cs) with
          | none =>
            simp only [List.length_cons] at h1 h2
            exact ih f1 (by omega) cs f2 (by omega) (by omega)
          | some gr =>
            cases gr with
            | mk g rest =>
              have hlen := matchToolAt_length (c :: cs) g rest hm
              simp only [List.length_cons] at h1 h2 hlen
              have e1 : findBlocksAux f1 rest = findBlocksAux rest.length rest :=
                ih f1 (by omega) rest rest.length (by omega) le_rfl
              have e2 : findBlocksAux rest.length rest = findBlocksAux f2 rest :=
                ih rest.length (by omega) rest f2 le_rfl (by omega)
              dsimp only
              rw [e1, e2]

theorem findToolBlocks_of_match (cs g rest : List Char)
    (h : matchToolAt cs = some (g, rest)) :
    findToolBlocks cs = g :: findToolBlocks rest := by
  cases cs with
  | nil =>
    have hn : matchToolAt ([] : List Char) = none := rfl
    rw [hn] at h
    simp at h
  | cons c cs =>
    have hlen := matchToolAt_length (c :: cs) g rest h
    simp only [List.length_cons] at hlen
    simp only [findToolBlocks]
    rw [show (c :: cs).length = cs.length + 1 from rfl]
    simp only [findBlocksAux, h]
    have := findBlocksAux_irrel cs.length rest rest.length (by omega) le_rfl
    rw [this]

theorem findToolBlocks_cons_none (c : Char) (cs : List Char)
    (h : matchToolAt (c :: cs) = none) :
    findToolBlocks (c :: cs) = findToolBlocks cs := by
  simp only [findToolBlocks]
  rw [show (c :: cs).length = cs.length + 1 from rfl]
  simp only [findBlocksAux, h]

/-! ## Scanner lemmas: behaviour on rendered segment texts -/

theorem matchToolAt_cons_none (c : Char) (cs : List Char)
    (h : (c != backtick) = true) : matchToolAt (c :: cs) = none := by
  have hne : ¬ (backtick == c) = true := by
    simp only [bne_iff_ne, ne_eq] at h
    simp only [beq_iff_eq]
    intro hh
    exact h hh.symm
  have hot : openTag = backtick :: backtick :: backtick :: 't' :: 'o' :: 'o' :: 'l' :: [] := rfl
  have : startsWith openTag (c :: cs) = false := by
    rw [hot]
    simp only [startsWith, Bool.and_eq_false_iff]
    left
    exact Bool.not_eq_true _ ▸ (by simpa using hne)
  simp [matchToolAt, this]

theorem findToolBlocks_skip :
    ∀ (pl rest : List Char), noBacktick pl = true →
      findToolBlocks (pl ++ rest) = findToolBlocks rest := by
  intro pl
  induction pl with
  | nil => intro rest _; rfl
  | cons c pl ih =>
    intro rest h
    simp only [noBacktick, List.all_cons, Bool.and_eq_true] at h
    obtain ⟨hc, hpl⟩ := h
    rw [List.cons_append, findToolBlocks_cons_none c (pl ++ rest)
      (matchToolAt_cons_none c _ hc)]
    exact ih rest hpl

theorem findToolBlocks_nil_of_noBacktick (cs : List Char) (h : noBacktick cs = true) :
    findToolBlocks cs = [] := by
  have h2 := findToolBlocks_skip cs [] h
  rw [List.append_nil] at h2
  exact h2.trans rfl

theorem startsWith_append_of_le :
    ∀ (p l x : List Char), p.length ≤ l.length →
      startsWith p (l ++ x) = startsWith p l := by
  intro p
  induction p with
  | nil => intro l x _; rfl
  | cons pc p ih =>
    intro l x h
    cases l with
    | nil => simp at h
    | cons lc l =>
      simp only [List.cons_append, startsWith, List.append_eq]
      rw [ih l x (by simpa using h)]

theorem startsWith_closeFence_straddle_false :
    ∀ (py2 : List Char) (c : Char) (rest : List Char),
      startsWith closeFence (c :: py2) = false →
      startsWith closeFence (c :: (py2 ++ (closeFence ++ rest))) = false := by
  intro py2
  match py2 with
  | [] =>
    intro c rest _
    show startsWith closeFence
      (c :: '\n' :: backtick :: backtick :: backtick :: rest) = false
    simp only [closeFence, startsWith]
    rw [show (backtick == '\n') = false from rfl]
    simp
  | [a] =>
    intro c rest _
    show startsWith closeFence
      (c :: a :: '\n' :: backtick :: backtick :: backtick :: rest) = false
    simp only [closeFence, startsWith]
    rw [show (backtick == '\n') = false from rfl]
    simp
  | [a, b] =>
    intro c rest _
    show startsWith closeFence
      (c :: a :: b :: '\n' :: backtick :: backtick :: backtick :: rest) = false
    simp only [closeFence, startsWith]
    rw [show (backtick == '\n') = false from rfl]
    simp
  | a :: b :: d :: tl =>
    intro c rest h
    rw [show c :: ((a :: b :: d :: tl) ++ (closeFence ++ rest)) =
      (c :: a :: b :: d :: tl) ++ (closeFence ++ rest) from rfl]
    rw [startsWith_append_of_le closeFence (c :: a :: b :: d :: tl) (closeFence ++ rest)
      (by simp [closeFence])]
    exact h

theorem splitAtCloseFence_exact :
    ∀ (py rest : List Char), hasCloseFence py = false →
      splitAtCloseFence (py ++ (closeFence ++ rest)) = some (py, rest) := by
  intro py
  induction py with
  | nil =>
    intro rest _
    have hc : startsWith closeFence
        ('\n' :: backtick :: backtick :: backtick :: rest) = true := by
      simp [startsWith, closeFence]
    show splitAtCloseFence ('\n' :: backtick :: backtick :: backtick :: rest) =
      some ([], rest)
    simp [splitAtCloseFence, hc]
  | cons c py2 ih =>
    intro rest h
    simp only [hasCloseFence, Bool.or_eq_false_iff] at h
    obtain ⟨h1, h2⟩ := h
    have hs := startsWith_closeFence_straddle_false py2 c rest h1
    rw [List.cons_append]
    simp only [splitAtCloseFence, hs, Bool.false_eq_true, if_false]
    rw [ih rest h2]

theorem matchToolAt_render (py rest : List Char) (hg : goodPayload py = true) :
    matchToolAt (renderBlockL py ++ rest) = some (py, rest) := by
  obtain ⟨c0, py2, rfl⟩ : ∃ c0 py2, py = c0 :: py2 := by
    cases py with
    | nil => simp [goodPayload] at hg
    | cons a b => exact ⟨a, b, rfl⟩
  simp only [goodPayload, Bool.and_eq_true, Bool.not_eq_true'] at hg
  obtain ⟨hc0, hcf⟩ := hg
  have hshape : renderBlockL (c0 :: py2) ++ rest =
      openTag ++ ('\n' :: c0 :: (py2 ++ (closeFence ++ rest))) := by
    simp [renderBlockL, List.append_assoc]
  rw [hshape]
  have hX : startsWith openTag
      (openTag ++ ('\n' :: c0 :: (py2 ++ (closeFence ++ rest)))) = true :=
    startsWith_self_append openTag _
  simp only [matchToolAt, hX, if_true]
  rw [show (7 : Nat) = openTag.length from rfl, List.drop_left]
  have hnl : isPySpace '\n' = true := rfl
  have hws : wsRunLen ('\n' :: c0 :: (py2 ++ (closeFence ++ rest))) = 1 := by
    simp [wsRunLen, hnl, hc0]
  rw [hws]
  have hcond : ((('\n' :: c0 :: (py2 ++ (closeFence ++ rest))).take 1).all isPySpace &&
      ('\n' :: c0 :: (py2 ++ (closeFence ++ rest))).get? 1 == some '\n') = false := by
    have hc0n : (c0 == '\n') = false := by
      cases hb : (c0 == '\n') with
      | false => rfl
      | true =>
        rw [show c0 = '\n' from by simpa using hb] at hc0
        rw [hnl] at hc0
        cases hc0
    simp [List.get?, hc0n]
  simp only [tryFrom, hcond, Bool.false_eq_true, if_false]
  have hhead : (('\n' :: c0 :: (py2 ++ (closeFence ++ rest))).head? == some '\n') = true := rfl
  simp only [hhead, if_true]
  rw [show ('\n' :: c0 :: (py2 ++ (closeFence ++ rest))).drop 1 =
    (c0 :: py2) ++ (closeFence ++ rest) from rfl]
  exact splitAtCloseFence_exact (c0 :: py2) rest hcf

theorem findToolBlocks_render :
    ∀ (segs : List (List Char × List Char)) (tail : List Char),
      (∀ seg ∈ segs, noBacktick seg.1 = true ∧ goodPayload seg.2 = true) →
      noBacktick tail = true →
      findToolBlocks (renderSegs segs tail) = segs.map (fun seg => seg.2) := by
  intro segs
  induction segs with
  | nil => intro tail _ ht; exact findToolBlocks_nil_of_noBacktick tail ht
  | cons seg rest ih =>
    intro tail hsegs ht
    obtain ⟨hpl, hpy⟩ := hsegs seg (by simp)
    simp only [renderSegs]
    rw [findToolBlocks_skip seg.1 _ hpl]
    rw [findToolBlocks_of_match _ seg.2 (renderSegs rest tail)
      (matchToolAt_render seg.2 (renderSegs rest tail) hpy)]
    rw [ih tail (fun s hs => hsegs s (by simp [hs])) ht]
    rfl

theorem toolCallsOfBlocks_benign :
    ∀ (bs : List (List Char)), (∀ b ∈ bs, payloadBenign b = true) →
      toolCallsOfBlocks bs = Except.ok (bs.filterMap callOfPayload) := by
  intro bs
  induction bs with
  | nil => intro _; rfl
  | cons b bs ih =>
    intro h
    have hb := h b (by simp)
    have hrec := ih (fun x hx => h x (by simp [hx]))
    simp only [toolCallsOfBlocks, List.filterMap]
    cases hload : loads (pyStrip b) with
    | none =>
      rw [hrec]
      simp [callOfPayload, hload]
    | some v =>
      cases v with
      | obj fields =>
        rw [hrec]
        simp [callOfPayload, hload]
      | null => simp [payloadBenign, hload] at hb
      | bool bv => simp [payloadBenign, hload] at hb
      | num n => simp [payloadBenign, hload] at hb
      | str s => simp [payloadBenign, hload] at hb
      | arr xs => simp [payloadBenign, hload] at hb

/-! ## Claims C4 and C3 -/

/-- C4 (amended): a directive block whose payload is not valid JSON
contributes zero ToolCalls and does not raise; the remaining well-formed
blocks are still extracted.  (A payload that is valid JSON but not an
object raises AttributeError instead - see the counterexample.) -/
theorem claim4_malformed_payload_skipped
    (segs : List (List Char × List Char)) (tail : List Char)
    (hsegs : ∀ seg ∈ segs, noBacktick seg.1 = true ∧ goodPayload seg.2 = true)
    (ht : noBacktick tail = true)
    (hben : ∀ seg ∈ segs, payloadBenign seg.2 = true) :
    parse_tool_calls (String.mk (renderSegs segs tail)) =
      Except.ok ((segs.map (fun seg => seg.2)).filterMap callOfPayload) := by
  show toolCallsOfBlocks (findToolBlocks (renderSegs segs tail)) = _
  rw [findToolBlocks_render segs tail hsegs ht]
  refine toolCallsOfBlocks_benign _ ?_
  intro b hb
  obtain ⟨seg, hseg, rfl⟩ := List.mem_map.1 hb
  exact hben seg hseg

/-- The claim C4 as stated is false on the code: a directive payload that
is valid JSON but not an object (here the literal 42) raises
AttributeError out of _parse_tool_calls instead of being skipped. -/
theorem claim4_malformed_payload_skipped_counterexample :
    parse_tool_calls ("```tool\n42\n```") = Except.error ("AttributeError") := rfl

/-- Witness for C4: one invalid-JSON block between two well-formed pieces
of text contributes nothing, the well-formed block is still extracted. -/
theorem claim4_malformed_payload_skipped_witness :
    parse_tool_calls (String.mk (renderSegs
      [((("Voici ").data), (("\x7b\"name\": \"a\"\x7d").data)),
       (((" et ").data), (("pas du json").data))] ((" fin.").data))) =
      Except.ok [ToolCall.mk (JsonValue.str ("a")) (JsonValue.obj []) none] :=
  (claim4_malformed_payload_skipped
    [((("Voici ").data), (("\x7b\"name\": \"a\"\x7d").data)),
     (((" et ").data), (("pas du json").data))] ((" fin.").data)
    (by decide) (by decide) (by decide)).trans (by rfl)

/-- C3: the ToolCalls extracted by _parse_tool_calls appear in the result
in the textual order of their directive blocks, and the tool loop of
Agent.chat executes the extracted list front to back, emitting for each
call a tool_call event before execution and a tool_result event after. -/
theorem claim3_textual_order :
    (∀ (segs : List (List Char × List Char)) (tail : List Char),
      (∀ seg ∈ segs, noBacktick seg.1 = true ∧ goodPayload seg.2 = true) →
      noBacktick tail = true →
      (∀ seg ∈ segs, (callOfPayload seg.2).isSome = true) →
      parse_tool_calls (String.mk (renderSegs segs tail)) =
        Except.ok ((segs.map (fun seg => seg.2)).filterMap callOfPayload))
    ∧ (∀ (tools : ToolSuite) (tcs : List ToolCall),
      (runTools tools tcs).1 =
        (tcs.map (fun tc => [AgentEvent.tool_call tc.name tc.arguments,
          AgentEvent.tool_result tc.name ((execute_tool tools tc).1)])).flatten) := by
  constructor
  · intro segs tail hsegs ht hsome
    have hben : ∀ seg ∈ segs, payloadBenign seg.2 = true := by
      intro seg hseg
      have hs := hsome seg hseg
      simp only [callOfPayload] at hs
      simp only [payloadBenign]
      cases hload : loads (pyStrip seg.2) with
      | none => simp [hload] at hs
      | some v =>
        cases v with
        | obj fields => simp [hload]
        | null => simp [hload] at hs
        | bool bv => simp [hload] at hs
        | num n => simp [hload] at hs
        | str s => simp [hload] at hs
        | arr xs => simp [hload] at hs
    show toolCallsOfBlocks (findToolBlocks (renderSegs segs tail)) = _
    rw [findToolBlocks_render segs tail hsegs ht]
    refine toolCallsOfBlocks_benign _ ?_
    intro b hb
    obtain ⟨seg, hseg, rfl⟩ := List.mem_map.1 hb
    exact hben seg hseg
  · intro tools tcs
    exact runTools_events tools tcs

/-- Witness for C3: two directive blocks extract in textual order, and the
tool loop emits call/result pairs in that order. -/
theorem claim3_textual_order_witness :
    parse_tool_calls (String.mk (renderSegs
      [((("A ").data), (("\x7b\"name\": \"u\"\x7d").data)),
       (((" B ").data), (("\x7b\"name\": \"v\"\x7d").data))] ((" C").data))) =
      Except.ok [ToolCall.mk (JsonValue.str ("u")) (JsonValue.obj []) none,
        ToolCall.mk (JsonValue.str ("v")) (JsonValue.obj []) none]
    ∧ (runTools noTools [ToolCall.mk (JsonValue.str ("read_file")) (JsonValue.obj []) none]).1 =
      [AgentEvent.tool_call (JsonValue.str ("read_file")) (JsonValue.obj []),
       AgentEvent.tool_result (JsonValue.str ("read_file"))
         ("Error executing read_file: unavailable")] :=
  ⟨(claim3_textual_order.1
      [((("A ").data), (("\x7b\"name\": \"u\"\x7d").data)),
       (((" B ").data), (("\x7b\"name\": \"v\"\x7d").data))] ((" C").data)
      (by decide) (by decide) (by decide)).trans (by rfl),
   (claim3_textual_order.2 noTools
      [ToolCall.mk (JsonValue.str ("read_file")) (JsonValue.obj []) none]).trans (by rfl)⟩

/-! ## Counting model calls in a trace -/

theorem countStatus_append (a b : List AgentEvent) :
    countStatus (a ++ b) = countStatus a + countStatus b := by
  simp [countStatus, List.filter_append]

theorem countStatus_chunks (cs : List String) :
    countStatus (cs.map AgentEvent.chunk) = 0 := by
  induction cs with
  | nil => rfl
  | cons c cs ih => simp [countStatus, isStatusEv, List.filter] at ih ⊢; try exact ih

theorem countStatus_runTools (tools : ToolSuite) (tcs : List ToolCall) :
    countStatus ((runTools tools tcs).1) = 0 := by
  induction tcs with
  | nil => rfl
  | cons tc rest ih =>
    simp [runTools, countStatus, isStatusEv, List.filter] at ih ⊢; try exact ih

theorem countStatus_status_chunks (i : Nat) (cs : List String) :
    countStatus (AgentEvent.status ("thinking") i :: cs.map AgentEvent.chunk) = 1 := by
  rw [show AgentEvent.status ("thinking") i :: cs.map AgentEvent.chunk =
    [AgentEvent.status ("thinking") i] ++ cs.map AgentEvent.chunk from rfl]
  rw [countStatus_append, countStatus_chunks]
  rfl

theorem countStatus_cons_status (s : String) (i : Nat) (l : List AgentEvent) :
    countStatus (AgentEvent.status s i :: l) = countStatus l + 1 := by
  simp [countStatus, List.filter, isStatusEv]

theorem chatLoop_countStatus_le (tools : ToolSuite)
    (oracle : List ChatMessage → Nat → StreamBehavior) :
    ∀ (r : Nat) (msgs : List ChatMessage) (it : Nat) (full : String) (st : AgentStatus),
      countStatus (chatLoop tools oracle msgs it r full st).events ≤ r := by
  intro r
  induction r with
  | zero => intro msgs it full st; simp [chatLoop, countStatus]
  | succ r ih =>
    intro msgs it full st
    cases hf : (oracle msgs (it + 1)).failure with
    | some e =>
      rw [chatLoop_succ_err tools oracle msgs it r full st e hf]
      rw [show (LoopOut.mk (AgentEvent.status ("thinking") (it + 1) ::
        (oracle msgs (it + 1)).chunks.map AgentEvent.chunk) full
        AgentStatus.THINKING (some (AgentError.streamError e))).events =
        AgentEvent.status ("thinking") (it + 1) ::
          (oracle msgs (it + 1)).chunks.map AgentEvent.chunk from rfl]
      rw [countStatus_status_chunks]
      omega
    | none =>
      cases hp : parse_tool_calls (strConcat (oracle msgs (it + 1)).chunks) with
      | error e =>
        rw [chatLoop_succ_attr tools oracle msgs it r full st e hf hp]
        rw [show (LoopOut.mk (AgentEvent.status ("thinking") (it + 1) ::
          (oracle msgs (it + 1)).chunks.map AgentEvent.chunk)
          (full ++ strConcat (oracle msgs (it + 1)).chunks)
          AgentStatus.THINKING (some AgentError.attributeError)).events =
          AgentEvent.status ("thinking") (it + 1) ::
            (oracle msgs (it + 1)).chunks.map AgentEvent.chunk from rfl]
        rw [countStatus_status_chunks]
        omega
      | ok tcs =>
        cases tcs with
        | nil =>
          rw [chatLoop_succ_stop tools oracle msgs it r full st hf hp]
          rw [show (LoopOut.mk (AgentEvent.status ("thinking") (it + 1) ::
            (oracle msgs (it + 1)).chunks.map AgentEvent.chunk)
            (full ++ strConcat (oracle msgs (it + 1)).chunks)
            AgentStatus.THINKING none).events =
            AgentEvent.status ("thinking") (it + 1) ::
              (oracle msgs (it + 1)).chunks.map AgentEvent.chunk from rfl]
          rw [countStatus_status_chunks]
          omega
        | cons tc rest =>
          rw [chatLoop_succ_tools tools oracle msgs it r full st tc rest hf hp]
          rw [show ∀ (a : List AgentEvent) (b : String) (c : AgentStatus)
            (d : Option AgentError), (LoopOut.mk a b c d).events = a from fun _ _ _ _ => rfl]
          rw [countStatus_cons_status, countStatus_append, countStatus_chunks,
            countStatus_append, countStatus_runTools]
          have := ih (nextMessages msgs (strConcat (oracle msgs (it + 1)).chunks)
            (runTools tools (tc :: rest)).2) (it + 1)
            (full ++ strConcat (oracle msgs (it + 1)).chunks) AgentStatus.TOOL_CALLING
          omega

/-! ## The iteration counter of the status events -/

theorem LoopOut_events (a : List AgentEvent) (b : String) (c : AgentStatus)
    (d : Option AgentError) : (LoopOut.mk a b c d).events = a := rfl

theorem LoopOut_failure (a : List AgentEvent) (b : String) (c : AgentStatus)
    (d : Option AgentError) : (LoopOut.mk a b c d).failure = d := rfl

theorem statusIters_append (a b : List AgentEvent) :
    statusIters (a ++ b) = statusIters a ++ statusIters b := by
  simp [statusIters, List.filterMap_append]

theorem statusIters_chunks (cs : List String) :
    statusIters (cs.map AgentEvent.chunk) = [] := by
  induction cs with
  | nil => rfl
  | cons c cs ih => simp [statusIters, List.filterMap] at ih ⊢; try exact ih

theorem statusIters_runTools (tools : ToolSuite) (tcs : List ToolCall) :
    statusIters ((runTools tools tcs).1) = [] := by
  induction tcs with
  | nil => rfl
  | cons tc rest ih =>
    simp [runTools, statusIters, List.filterMap] at ih ⊢; try exact ih

theorem statusIters_cons_status (s : String) (i : Nat) (l : List AgentEvent) :
    statusIters (AgentEvent.status s i :: l) = i :: statusIters l := by
  simp [statusIters]

theorem chatLoop_statusIters (tools : ToolSuite)
    (oracle : List ChatMessage → Nat → StreamBehavior) :
    ∀ (r : Nat) (msgs : List ChatMessage) (it : Nat) (full : String) (st : AgentStatus),
      statusIters (chatLoop tools oracle msgs it r full st).events =
        List.range' (it + 1)
          (countStatus (chatLoop tools oracle msgs it r full st).events) := by
  intro r
  induction r with
  | zero => intro msgs it full st; rfl
  | succ r ih =>
    intro msgs it full st
    cases hf : (oracle msgs (it + 1)).failure with
    | some e =>
      rw [chatLoop_succ_err tools oracle msgs it r full st e hf, LoopOut_events,
        statusIters_cons_status, statusIters_chunks, countStatus_status_chunks]
      rfl
    | none =>
      cases hp : parse_tool_calls (strConcat (oracle msgs (it + 1)).chunks) with
      | error e =>
        rw [chatLoop_succ_attr tools oracle msgs it r full st e hf hp, LoopOut_events,
          statusIters_cons_status, statusIters_chunks, countStatus_status_chunks]
        rfl
      | ok tcs =>
        cases tcs with
        | nil =>
          rw [chatLoop_succ_stop tools oracle msgs it r full st hf hp, LoopOut_events,
            statusIters_cons_status, statusIters_chunks, countStatus_status_chunks]
          rfl
        | cons tc rest =>
          rw [chatLoop_succ_tools tools oracle msgs it r full st tc rest hf hp,
            LoopOut_events, statusIters_cons_status, statusIters_append,
            statusIters_chunks, statusIters_append, statusIters_runTools,
            List.nil_append, List.nil_append,
            ih (nextMessages msgs (strConcat (oracle msgs (it + 1)).chunks)
              (runTools tools (tc :: rest)).2) (it + 1)
              (full ++ strConcat (oracle msgs (it + 1)).chunks) AgentStatus.TOOL_CALLING,
            countStatus_cons_status, countStatus_append, countStatus_chunks,
            countStatus_append, countStatus_runTools]
          simp [List.range'_succ]

theorem chatLoop_ok_of_benign (tools : ToolSuite)
    (oracle : List ChatMessage → Nat → StreamBehavior)
    (h1 : ∀ ms i, (oracle ms i).failure = none)
    (h2 : ∀ ms i, exceptOk (parse_tool_calls (strConcat (oracle ms i).chunks)) = true) :
    ∀ (r : Nat) (msgs : List ChatMessage) (it : Nat) (full : String) (st : AgentStatus),
      (chatLoop tools oracle msgs it r full st).failure = none := by
  intro r
  induction r with
  | zero => intro msgs it full st; rfl
  | succ r ih =>
    intro msgs it full st
    cases hp : parse_tool_calls (strConcat (oracle msgs (it + 1)).chunks) with
    | error e =>
      have h3 := h2 msgs (it + 1)
      rw [hp] at h3
      simp [exceptOk] at h3
    | ok tcs =>
      cases tcs with
      | nil =>
        rw [chatLoop_succ_stop tools oracle msgs it r full st (h1 msgs (it + 1)) hp]
      | cons tc rest =>
        rw [chatLoop_succ_tools tools oracle msgs it r full st tc rest
          (h1 msgs (it + 1)) hp, LoopOut_failure]
        exact ih _ _ _ _

/-! ## Claim C1 -/

/-- C1 (amended): over one Agent.chat turn the number of model calls never
exceeds max_iterations and the iteration counter of the status events runs
1, 2, 3, ... without gaps, for every model behaviour; furthermore, when no
model stream raises and no directive payload decodes to a non-object JSON
value, the turn completes without an exception and its last event is done.
(The unamended claim is false: a directive payload decoding to a
non-object JSON value raises AttributeError and suppresses done - see the
counterexample.) -/
theorem claim1_iteration_bound (tools : ToolSuite)
    (oracle : List ChatMessage → Nat → StreamBehavior) (maxit : Nat)
    (conv : List ChatMessage) (st0 : AgentStatus) (msg : String) :
    countStatus (Agent.chat tools oracle maxit conv st0 msg).events ≤ maxit
    ∧ statusIters (Agent.chat tools oracle maxit conv st0 msg).events =
        List.range' 1 (countStatus (Agent.chat tools oracle maxit conv st0 msg).events)
    ∧ ((∀ ms i, (oracle ms i).failure = none) →
      (∀ ms i, exceptOk (parse_tool_calls (strConcat (oracle ms i).chunks)) = true) →
      (Agent.chat tools oracle maxit conv st0 msg).failure = none ∧
      ∃ rtext, (Agent.chat tools oracle maxit conv st0 msg).events.getLast? =
        some (AgentEvent.done rtext)) := by
  cases hlf : (chatLoop tools oracle
      (ChatMessage.mk ("system") SYSTEM_PROMPT ::
        (conv ++ [ChatMessage.mk ("user") msg])) 0 maxit ("") st0).failure with
  | some e0 =>
    rw [chat_eq_of_failure tools oracle maxit conv st0 msg e0 hlf]
    refine ⟨chatLoop_countStatus_le tools oracle maxit _ 0 ("") st0,
      chatLoop_statusIters tools oracle maxit _ 0 ("") st0, ?_⟩
    intro h1 h2
    rw [chatLoop_ok_of_benign tools oracle h1 h2 maxit _ 0 ("") st0] at hlf
    cases hlf
  | none =>
    rw [chat_eq_of_ok tools oracle maxit conv st0 msg hlf]
    refine ⟨?_, ?_, ?_⟩
    · rw [show ∀ (a : List AgentEvent) (b : List ChatMessage) (c : AgentStatus)
        (d : Option AgentError), (ChatOutcome.mk a b c d).events = a from
        fun _ _ _ _ => rfl]
      rw [countStatus_append]
      have h := chatLoop_countStatus_le tools oracle maxit
        (ChatMessage.mk ("system") SYSTEM_PROMPT ::
          (conv ++ [ChatMessage.mk ("user") msg])) 0 ("") st0
      have h2 : countStatus [AgentEvent.done (chatLoop tools oracle
        (ChatMessage.mk ("system") SYSTEM_PROMPT ::
          (conv ++ [ChatMessage.mk ("user") msg])) 0 maxit ("") st0).full] = 0 := rfl
      omega
    · rw [show ∀ (a : List AgentEvent) (b : List ChatMessage) (c : AgentStatus)
        (d : Option AgentError), (ChatOutcome.mk a b c d).events = a from
        fun _ _ _ _ => rfl]
      rw [countStatus_append, statusIters_append]
      rw [show statusIters [AgentEvent.done (chatLoop tools oracle
        (ChatMessage.mk ("system") SYSTEM_PROMPT ::
          (conv ++ [ChatMessage.mk ("user") msg])) 0 maxit ("") st0).full] = [] from rfl]
      rw [show countStatus [AgentEvent.done (chatLoop tools oracle
        (ChatMessage.mk ("system") SYSTEM_PROMPT ::
          (conv ++ [ChatMessage.mk ("user") msg])) 0 maxit ("") st0).full] = 0 from rfl]
      rw [List.append_nil, Nat.add_zero]
      exact chatLoop_statusIters tools oracle maxit _ 0 ("") st0
    · intro _ _
      refine ⟨rfl, (chatLoop tools oracle
        (ChatMessage.mk ("system") SYSTEM_PROMPT ::
          (conv ++ [ChatMessage.mk ("user") msg])) 0 maxit ("") st0).full, ?_⟩
      rw [show ∀ (a : List AgentEvent) (b : List ChatMessage) (c : AgentStatus)
        (d : Option AgentError), (ChatOutcome.mk a b c d).events = a from
        fun _ _ _ _ => rfl]
      exact List.getLast?_concat _

/-- The unamended C1 is false: with a model that keeps emitting one
directive block whose payload is the JSON literal 42, the turn aborts with
AttributeError on the first iteration and no done event is ever
emitted. -/
theorem claim1_iteration_bound_counterexample :
    (Agent.chat noTools (plainOracle ("```tool\n42\n```")) 10 [] AgentStatus.IDLE
        ("salut")).failure = some AgentError.attributeError
    ∧ ((Agent.chat noTools (plainOracle ("```tool\n42\n```")) 10 [] AgentStatus.IDLE
        ("salut")).events.filter isDoneEv) = [] := ⟨rfl, rfl⟩

/-- Witness for C1 on a benign oracle. -/
theorem claim1_iteration_bound_witness :
    (Agent.chat noTools (plainOracle ("Bonjour")) 10 [] AgentStatus.IDLE
        ("salut")).failure = none
    ∧ ∃ rtext, (Agent.chat noTools (plainOracle ("Bonjour")) 10 [] AgentStatus.IDLE
        ("salut")).events.getLast? = some (AgentEvent.done rtext) :=
  (claim1_iteration_bound noTools (plainOracle ("Bonjour")) 10 [] AgentStatus.IDLE
    ("salut")).2.2 (fun _ _ => rfl) (fun _ _ => rfl)

/-! ## The full trace of a run with k model calls -/

theorem range_map_shift {α : Type} (f : Nat → α) (j : Nat) :
    (List.range (j + 1)).map f = f 0 :: (List.range j).map (fun a => f (a + 1)) := by
  rw [List.range_succ_eq_map]
  simp [List.map_map, Function.comp]

theorem fullFromResp_succ (resp : Nat → List String) (it j : Nat) :
    fullFromResp resp it (j + 1) =
      strConcat (resp (it + 1)) ++ fullFromResp resp (it + 1) j := by
  simp only [fullFromResp]
  rw [range_map_shift (fun a => strConcat (resp (it + a + 1))) j]
  simp only [strConcat]
  congr 2
  apply List.map_congr_left
  intro a _
  rw [show it + (a + 1) + 1 = it + 1 + a + 1 from by omega]

theorem chatLoop_trace (tools : ToolSuite)
    (oracle : List ChatMessage → Nat → StreamBehavior) (resp : Nat → List String)
    (hor : ∀ ms i, oracle ms i = StreamBehavior.mk (resp i) none) :
    ∀ (j : Nat) (msgs : List ChatMessage) (it r : Nat) (full : String) (st : AgentStatus),
      (∀ i, it < i → i ≤ it + j → ∃ tc tcs,
        parse_tool_calls (strConcat (resp i)) = Except.ok (tc :: tcs)) →
      parse_tool_calls (strConcat (resp (it + j + 1))) = Except.ok [] →
      j < r →
      chatLoop tools oracle msgs it r full st = LoopOut.mk
        (((List.range j).map
            (fun a => iterTrace tools (resp (it + a + 1)) (it + a + 1))).flatten
          ++ (AgentEvent.status ("thinking") (it + j + 1) ::
            (resp (it + j + 1)).map AgentEvent.chunk))
        (full ++ fullFromResp resp it (j + 1))
        AgentStatus.THINKING none := by
  intro j
  induction j with
  | zero =>
    intro msgs it r full st hdir hstop hlt
    cases r with
    | zero => omega
    | succ r =>
      have hf : (oracle msgs (it + 1)).failure = none := by rw [hor]
      have hc : (oracle msgs (it + 1)).chunks = resp (it + 1) := by rw [hor]
      have hstop2 : parse_tool_calls (strConcat (oracle msgs (it + 1)).chunks) =
          Except.ok [] := by rw [hc]; exact hstop
      rw [chatLoop_succ_stop tools oracle msgs it r full st hf hstop2, hc]
      simp only [LoopOut.mk.injEq]
      refine ⟨by simp, ?_, trivial, trivial⟩
      rw [fullFromResp_succ, show fullFromResp resp (it + 1) 0 = "" from rfl,
        strAppend_nil]
  | succ j ihj =>
    intro msgs it r full st hdir hstop hlt
    cases r with
    | zero => omega
    | succ r =>
      have hf : (oracle msgs (it + 1)).failure = none := by rw [hor]
      have hc : (oracle msgs (it + 1)).chunks = resp (it + 1) := by rw [hor]
      obtain ⟨tc, tcs, hp1⟩ := hdir (it + 1) (by omega) (by omega)
      have hp2 : parse_tool_calls (strConcat (oracle msgs (it + 1)).chunks) =
          Except.ok (tc :: tcs) := by rw [hc]; exact hp1
      have hdir2 : ∀ i, it + 1 < i → i ≤ it + 1 + j → ∃ tc2 tcs2,
          parse_tool_calls (strConcat (resp i)) = Except.ok (tc2 :: tcs2) := by
        intro i hi1 hi2
        exact hdir i (by omega) (by omega)
      have hstop2 : parse_tool_calls (strConcat (resp (it + 1 + j + 1))) =
          Except.ok [] := by
        rw [show it + 1 + j + 1 = it + (j + 1) + 1 from by omega]
        exact hstop
      rw [chatLoop_succ_tools tools oracle msgs it r full st tc tcs hf hp2]
      rw [ihj (nextMessages msgs (strConcat (oracle msgs (it + 1)).chunks)
        (runTools tools (tc :: tcs)).2) (it + 1) r
        (full ++ strConcat (oracle msgs (it + 1)).chunks) AgentStatus.TOOL_CALLING
        hdir2 hstop2 (by omega)]
      rw [hc]
      simp only [LoopOut_events, LoopOut_failure, LoopOut.mk.injEq]
      have hcalls : callsOf (strConcat (resp (it + 1))) = tc :: tcs := by
        simp [callsOf, hp1]
      refine ⟨?_, ?_, trivial, trivial⟩
      · rw [range_map_shift
          (fun a => iterTrace tools (resp (it + a + 1)) (it + a + 1)) j]
        rw [show (List.range j).map
            (fun a => iterTrace tools (resp (it + (a + 1) + 1)) (it + (a + 1) + 1)) =
          (List.range j).map
            (fun a => iterTrace tools (resp (it + 1 + a + 1)) (it + 1 + a + 1)) from by
            apply List.map_congr_left
            intro a _
            rw [show it + (a + 1) + 1 = it + 1 + a + 1 from by omega]]
        rw [show it + (j + 1) + 1 = it + 1 + j + 1 from by omega]
        simp only [List.flatten_cons, iterTrace, hcalls, List.cons_append,
          List.append_assoc]
      · rw [fullFromResp_succ resp it (j + 1), strAppend_assoc]

/-! ## Counting tool rounds -/

theorem countStatus_iterTrace (tools : ToolSuite) (chunks : List String) (i : Nat) :
    countStatus (iterTrace tools chunks i) = 1 := by
  simp only [iterTrace]
  rw [countStatus_cons_status, countStatus_append, countStatus_chunks,
    countStatus_runTools]

theorem countStatus_flatten_ones :
    ∀ (segs : List (List AgentEvent)), (∀ s ∈ segs, countStatus s = 1) →
      countStatus segs.flatten = segs.length := by
  intro segs
  induction segs with
  | nil => intro _; rfl
  | cons s segs ih =>
    intro h
    rw [List.flatten_cons, countStatus_append, h s (by simp),
      ih (fun s2 hs2 => h s2 (by simp [hs2]))]
    simp only [List.length_cons]
    omega

theorem ctrAux_chunks (cs : List String) :
    ∀ (Y : List AgentEvent) (b : Bool),
      ctrAux (cs.map AgentEvent.chunk ++ Y) b = ctrAux Y b := by
  induction cs with
  | nil => intro Y b; rfl
  | cons c cs ih =>
    intro Y b
    simp only [List.map_cons, List.cons_append, ctrAux]
    exact ih Y b

theorem ctrAux_runTools_true (tools : ToolSuite) :
    ∀ (tcs : List ToolCall) (Y : List AgentEvent),
      ctrAux ((runTools tools tcs).1 ++ Y) true = ctrAux Y true := by
  intro tcs
  induction tcs with
  | nil => intro Y; rfl
  | cons tc rest ih =>
    intro Y
    show ctrAux ((AgentEvent.tool_call tc.name tc.arguments ::
      AgentEvent.tool_result tc.name (execute_tool tools tc).1 ::
      (runTools tools rest).1) ++ Y) true = ctrAux Y true
    simp only [List.cons_append, ctrAux, if_true]
    exact ih Y

theorem ctrAux_iterTrace (tools : ToolSuite) (chunks : List String) (i : Nat)
    (hne : callsOf (strConcat chunks) ≠ []) :
    ∀ (Z : List AgentEvent) (c : Bool),
      ctrAux (iterTrace tools chunks i ++ Z) c = ctrAux Z true + 1 := by
  intro Z c
  obtain ⟨tc, tcs, hcalls⟩ : ∃ tc tcs, callsOf (strConcat chunks) = tc :: tcs := by
    cases h : callsOf (strConcat chunks) with
    | nil => exact absurd h hne
    | cons a b => exact ⟨a, b, rfl⟩
  simp only [iterTrace, hcalls, List.cons_append, ctrAux, List.append_eq,
    List.append_assoc]
  rw [ctrAux_chunks]
  show ctrAux ((AgentEvent.tool_call tc.name tc.arguments ::
    AgentEvent.tool_result tc.name (execute_tool tools tc).1 ::
    (runTools tools tcs).1) ++ Z) false = ctrAux Z true + 1
  simp only [List.cons_append, ctrAux, Bool.false_eq_true, if_false, List.append_eq]
  rw [ctrAux_runTools_true]

theorem ctrAux_flatten_ones :
    ∀ (segs : List (List AgentEvent)) (Y : List AgentEvent),
      (∀ s ∈ segs, ∀ (Z : List AgentEvent) (c : Bool),
        ctrAux (s ++ Z) c = ctrAux Z true + 1) →
      (∀ c1 c2, ctrAux Y c1 = ctrAux Y c2) →
      ∀ b, ctrAux (segs.flatten ++ Y) b = ctrAux Y true + segs.length := by
  intro segs
  induction segs with
  | nil =>
    intro Y _ hY b
    simp only [List.flatten_nil, List.nil_append, List.length_nil, Nat.add_zero]
    exact hY b true
  | cons s segs ih =>
    intro Y hseg hY b
    rw [List.flatten_cons, List.append_assoc]
    rw [hseg s (by simp) (segs.flatten ++ Y) b]
    rw [ih Y (fun s2 hs2 => hseg s2 (by simp [hs2])) hY true]
    simp only [List.length_cons]
    omega

/-! ## Claim C2 -/

/-- C2: when the model emits parseable directives on iterations 1..k-1 and
none on iteration k, with k ≤ max_iterations, Agent.chat performs exactly
k model calls and k-1 tool-execution rounds, and its event trace is the
strict alternation of per-iteration segments (status, chunks, then the
tool round) closing with the final model segment and done.  The k = 1
instance is the zero-directive case: one model call, done first. -/
theorem claim2_alternation (tools : ToolSuite)
    (oracle : List ChatMessage → Nat → StreamBehavior) (resp : Nat → List String)
    (maxit : Nat) (conv : List ChatMessage) (st0 : AgentStatus) (msg : String) (k : Nat)
    (hor : ∀ ms i, oracle ms i = StreamBehavior.mk (resp i) none)
    (hk1 : 1 ≤ k) (hk2 : k ≤ maxit)
    (hdir : ∀ i, 1 ≤ i → i < k → ∃ tc tcs,
      parse_tool_calls (strConcat (resp i)) = Except.ok (tc :: tcs))
    (hstop : parse_tool_calls (strConcat (resp k)) = Except.ok []) :
    (Agent.chat tools oracle maxit conv st0 msg).events =
      ((List.range (k - 1)).map
        (fun a => iterTrace tools (resp (a + 1)) (a + 1))).flatten
        ++ (AgentEvent.status ("thinking") k ::
          ((resp k).map AgentEvent.chunk ++
            [AgentEvent.done (fullFromResp resp 0 k)]))
    ∧ countStatus (Agent.chat tools oracle maxit conv st0 msg).events = k
    ∧ countToolRounds (Agent.chat tools oracle maxit conv st0 msg).events = k - 1 := by
  have hdir0 : ∀ i, 0 < i → i ≤ 0 + (k - 1) → ∃ tc tcs,
      parse_tool_calls (strConcat (resp i)) = Except.ok (tc :: tcs) := by
    intro i h1 h2
    exact hdir i (by omega) (by omega)
  have hstop0 : parse_tool_calls (strConcat (resp (0 + (k - 1) + 1))) =
      Except.ok [] := by
    rw [show 0 + (k - 1) + 1 = k from by omega]
    exact hstop
  have htr := chatLoop_trace tools oracle resp hor (k - 1)
    (ChatMessage.mk ("system") SYSTEM_PROMPT ::
      (conv ++ [ChatMessage.mk ("user") msg]))
    0 maxit ("") st0 hdir0 hstop0 (by omega)
  rw [show (List.range (k - 1)).map
      (fun a => iterTrace tools (resp (0 + a + 1)) (0 + a + 1)) =
    (List.range (k - 1)).map
      (fun a => iterTrace tools (resp (a + 1)) (a + 1)) from by
      apply List.map_congr_left
      intro a _
      rw [show 0 + a + 1 = a + 1 from by omega]] at htr
  rw [show 0 + (k - 1) + 1 = k from by omega] at htr
  rw [show k - 1 + 1 = k from by omega] at htr
  have hlf : (chatLoop tools oracle
      (ChatMessage.mk ("system") SYSTEM_PROMPT ::
        (conv ++ [ChatMessage.mk ("user") msg])) 0 maxit ("") st0).failure = none := by
    rw [htr]
  rw [chat_eq_of_ok tools oracle maxit conv st0 msg hlf]
  rw [show ∀ (a : List AgentEvent) (b : List ChatMessage) (c : AgentStatus)
    (d : Option AgentError), (ChatOutcome.mk a b c d).events = a from
    fun _ _ _ _ => rfl]
  rw [htr, LoopOut_events]
  rw [show ∀ (a : List AgentEvent) (b : String) (c : AgentStatus)
    (d : Option AgentError), (LoopOut.mk a b c d).full = b from fun _ _ _ _ => rfl]
  rw [strNil_append]
  have hsegs1 : ∀ s ∈ (List.range (k - 1)).map
      (fun a => iterTrace tools (resp (a + 1)) (a + 1)), countStatus s = 1 := by
    intro s hs
    obtain ⟨a, _, rfl⟩ := List.mem_map.1 hs
    exact countStatus_iterTrace tools _ _
  have hbump : ∀ s ∈ (List.range (k - 1)).map
      (fun a => iterTrace tools (resp (a + 1)) (a + 1)),
      ∀ (Z : List AgentEvent) (c : Bool), ctrAux (s ++ Z) c = ctrAux Z true + 1 := by
    intro s hs
    obtain ⟨a, ha, rfl⟩ := List.mem_map.1 hs
    have ha2 := List.mem_range.1 ha
    obtain ⟨tc, tcs, hp⟩ := hdir (a + 1) (by omega) (by omega)
    refine ctrAux_iterTrace tools _ _ ?_
    simp [callsOf, hp]
  refine ⟨?_, ?_, ?_⟩
  · simp [List.append_assoc, List.cons_append]
  · rw [countStatus_append, countStatus_append, countStatus_flatten_ones _ hsegs1,
      countStatus_status_chunks,
      show countStatus [AgentEvent.done (fullFromResp resp 0 k)] = 0 from rfl]
    simp only [List.length_map, List.length_range]
    omega
  · show ctrAux _ true = k - 1
    rw [List.append_assoc]
    rw [show (AgentEvent.status ("thinking") k :: (resp k).map AgentEvent.chunk) ++
      [AgentEvent.done (fullFromResp resp 0 k)] =
      AgentEvent.status ("thinking") k ::
        ((resp k).map AgentEvent.chunk ++ [AgentEvent.done (fullFromResp resp 0 k)])
      from by simp]
    rw [ctrAux_flatten_ones _ (AgentEvent.status ("thinking") k ::
      ((resp k).map AgentEvent.chunk ++ [AgentEvent.done (fullFromResp resp 0 k)]))
      hbump (fun c1 c2 => rfl) true]
    rw [show ctrAux (AgentEvent.status ("thinking") k ::
      ((resp k).map AgentEvent.chunk ++ [AgentEvent.done (fullFromResp resp 0 k)]))
      true = ctrAux ((resp k).map AgentEvent.chunk ++
        [AgentEvent.done (fullFromResp resp 0 k)]) false from rfl]
    rw [ctrAux_chunks]
    rw [show ctrAux [AgentEvent.done (fullFromResp resp 0 k)] false = 0 from rfl]
    simp only [List.length_map, List.length_range]
    omega

/-- Witness for C2 with k = 2: one directive round, then a plain final
answer; exactly two model calls and one tool round. -/
theorem claim2_alternation_witness :
    countStatus (Agent.chat noTools twoPhaseOracle 10 [] AgentStatus.IDLE
      ("salut")).events = 2
    ∧ countToolRounds (Agent.chat noTools twoPhaseOracle 10 [] AgentStatus.IDLE
      ("salut")).events = 1 :=
  ⟨(claim2_alternation noTools twoPhaseOracle twoPhaseResp 10 [] AgentStatus.IDLE
      ("salut") 2 (fun _ _ => rfl) (by omega) (by omega)
      (fun i h1 h2 => by
        rw [show i = 1 from by omega]
        exact ⟨ToolCall.mk (JsonValue.str ("read_file")) (JsonValue.obj []) none,
          [], rfl⟩)
      rfl).2.1,
   (claim2_alternation noTools twoPhaseOracle twoPhaseResp 10 [] AgentStatus.IDLE
      ("salut") 2 (fun _ _ => rfl) (by omega) (by omega)
      (fun i h1 h2 => by
        rw [show i = 1 from by omega]
        exact ⟨ToolCall.mk (JsonValue.str ("read_file")) (JsonValue.obj []) none,
          [], rfl⟩)
      rfl).2.2⟩

end Antigravity
